import Mathlib

/-!
Verification of the transcript-downloader program (src/main.py) against its
natural-language specification.  The program's pure logic is shallowly
embedded: URL strings are lists of characters, the regex patterns of
`extract_video_id` / `extract_channel_id` become an explicit leftmost-match
searcher over character classes, timestamps are exact rationals (the Python
floats that actually occur in the claims are dyadic, hence exactly
representable), and the network services (YouTube data API, transcript API)
become explicit oracles passed in as function arguments, with `Except` for
calls that may raise.
-/

namespace Spec2Proof

/-! ### Character classes used by the regular expressions in main.py -/

/-- Character class `[a-zA-Z0-9_-]` used by all four video-URL patterns
(main.py lines 232-237). -/
def isIdChar (c : Char) : Bool :=
  (('a' ≤ c ∧ c ≤ 'z') ∨ ('A' ≤ c ∧ c ≤ 'Z') ∨ ('0' ≤ c ∧ c ≤ '9') ∨ c = '_' ∨ c = '-' : Prop)

/-- Character class `[\w-]` of the `/channel/(UC[\w-]+)` pattern
(main.py line 91); ASCII reading of `\w`. -/
def isWordDash (c : Char) : Bool :=
  (('a' ≤ c ∧ c ≤ 'z') ∨ ('A' ≤ c ∧ c ≤ 'Z') ∨ ('0' ≤ c ∧ c ≤ '9') ∨ c = '_' ∨ c = '-' : Prop)

/-- Character class `[^/]` of the `/c/`, `/@` and `/user/` patterns
(main.py lines 92-94). -/
def isNotSlash (c : Char) : Bool :=
  !(c == '/')

/-- Whitespace stripped by Python's `str.strip()` (main.py line 87 and 431). -/
def isWs (c : Char) : Bool :=
  c == ' ' || c == '\t' || c == '\n' || c == '\r' || c == '\x0b' || c == '\x0c'

/-- Alphabet used to state the channel-name shape properties: characters
that the `[^/]` capture accepts and that URL cleaning cannot strip. -/
def isNameChar (c : Char) : Bool :=
  isNotSlash c && !isWs c

/-! ### Leftmost regex search

Every pattern in main.py has the shape `literal(class+)` (for the channel
pattern the capture's constant prefix `UC` is folded into the literal).
`re.search` finds the leftmost position at which the whole pattern matches;
the greedy `+` then captures the maximal run of class characters. -/

/-- Match the pattern `lit(p+)` at the current position only: the literal
must be a prefix here and at least one `p`-character must follow; the
capture is the maximal run of `p`-characters. -/
def tryCapture (lit : List Char) (p : Char → Bool) (s : List Char) : Option (List Char) :=
  if lit.isPrefixOf s then
    let cap := (s.drop lit.length).takeWhile p
    if cap.isEmpty then none else some cap
  else none

/-- Leftmost search for the pattern `lit(p+)`, as `re.search` does. -/
def searchCapture (lit : List Char) (p : Char → Bool) : List Char → Option (List Char)
  | [] => tryCapture lit p []
  | c :: cs =>
    match tryCapture lit p (c :: cs) with
    | some cap => some cap
    | none => searchCapture lit p cs

/-- Side condition for reasoning about leftmost search on a string of the
form `pre ++ v` where every character of `v` satisfies `q`: no occurrence
of `lit` can start inside `pre`.  For each start position `i` in `pre`,
either comparing `lit` with the rest of `pre` already fails, or the part of
`lit` that would overhang into `v` contains a character outside `q`'s
class.  Decidable, so concrete instances are discharged by `decide`. -/
def noOccIn (q : Char → Bool) (lit pre : List Char) : Prop :=
  ∀ i ∈ List.range pre.length,
    ¬(lit <+: pre.drop i) ∧
      (pre.drop i <+: lit →
        ∃ c ∈ lit.drop (pre.length - i), q c = false)

instance (q : Char → Bool) (lit pre : List Char) : Decidable (noOccIn q lit pre) := by
  unfold noOccIn
  infer_instance

/-- Companion side condition for the string `pre ++ lit ++ v` containing a
real occurrence of `lit` right after `pre`: no occurrence of `lit` starts
strictly inside `pre`.  For each start position `i` in `pre`, comparing
`lit` against the rest of `pre` fails, and when the rest of `pre` is a
prefix of `lit`, the part of `lit` overhanging the junction is not itself a
prefix of `lit` (no self-overlap).  Fully concrete, discharged by
`decide`. -/
def noOccInPos (lit pre : List Char) : Prop :=
  ∀ i ∈ List.range pre.length,
    ¬(lit <+: pre.drop i) ∧
      (pre.drop i <+: lit → ¬(lit.drop (pre.length - i) <+: lit))

instance (lit pre : List Char) : Decidable (noOccInPos lit pre) := by
  unfold noOccInPos
  infer_instance

/-! ### extract_video_id (main.py lines 222-244) -/

/-- Literals of the four video-URL patterns, in the order main.py tries them. -/
def videoPatterns : List (List Char) :=
  [("youtube.com/watch?v=").toList,
   ("youtu.be/").toList,
   ("youtube.com/v/").toList,
   ("youtube.com/embed/").toList]

/-- First pattern of an ordered list that matches, with its capture. -/
def findFirstCapture : List (List Char) → List Char → Option (List Char)
  | [], _ => none
  | lit :: rest, s =>
    match searchCapture lit isIdChar s with
    | some cap => some cap
    | none => findFirstCapture rest s

/-- Embedding of `extract_video_id`: try the four patterns in order and
return the capture of the first that matches; return the input unchanged
when none matches (main.py line 244). -/
def extract_video_id (video_url : List Char) : List Char :=
  match findFirstCapture videoPatterns video_url with
  | some cap => cap
  | none => video_url

/-! ### extract_channel_id (main.py lines 75-114) and its resolver calls -/

/-- Python `str.strip()`: drop whitespace from both ends. -/
def pyStrip (s : List Char) : List Char :=
  (((s.dropWhile isWs).reverse).dropWhile isWs).reverse

/-- Python `str.rstrip('/')`: drop trailing slashes. -/
def rstripSlash (s : List Char) : List Char :=
  ((s.reverse).dropWhile (fun c => c == '/')).reverse

/-- URL cleaning done first by `extract_channel_id`
(main.py line 87: `channel_url.strip().rstrip('/')`). -/
def cleanUrl (s : List Char) : List Char :=
  rstripSlash (pyStrip s)

/-- The four channel-URL pattern kinds of main.py lines 90-95, in order. -/
inductive ChanPattern where
  | channel
  | custom
  | handle
  | user
deriving DecidableEq

/-- Ordered pattern list as main.py builds it. -/
def chanPatternList : List ChanPattern :=
  [ChanPattern.channel, ChanPattern.custom, ChanPattern.handle, ChanPattern.user]

/-- Regex match of one channel pattern against a URL, returning the capture
group.  For `.channel` the pattern is `youtube\.com/channel/(UC[\w-]+)`: the
constant `UC` of the capture is part of the searched literal and is put back
in front of the captured run. -/
def chanMatch (s : List Char) : ChanPattern → Option (List Char)
  | ChanPattern.channel =>
    (searchCapture (("youtube.com/channel/UC").toList) isWordDash s).map
      (fun cap => 'U' :: 'C' :: cap)
  | ChanPattern.custom => searchCapture (("youtube.com/c/").toList) isNotSlash s
  | ChanPattern.handle => searchCapture (("youtube.com/@").toList) isNotSlash s
  | ChanPattern.user => searchCapture (("youtube.com/user/").toList) isNotSlash s

/-- Oracles for the four YouTube-API lookups of main.py lines 116-220.
Each lookup either raises (`Except.error`, the message) or returns the
first item's channel id (`some`) or no items (`none`).  `resolve_custom_url`,
`resolve_custom_handle` and `resolve_channel_url` are keyword searches;
`resolve_username` is the `forUsername` lookup. -/
structure ResolverEnv where
  customUrl : List Char → Except (List Char) (Option (List Char))
  customHandle : List Char → Except (List Char) (Option (List Char))
  username : List Char → Except (List Char) (Option (List Char))
  channelUrl : List Char → Except (List Char) (Option (List Char))

/-- Resolver attached to each pattern in main.py lines 90-95.  The
`.channel` pattern's resolver is `lambda x: x`: no API call, never raises. -/
def runResolver (env : ResolverEnv) : ChanPattern → List Char →
    Except (List Char) (Option (List Char))
  | ChanPattern.channel, x => Except.ok (some x)
  | ChanPattern.custom, x => env.customUrl x
  | ChanPattern.handle, x => env.customHandle x
  | ChanPattern.user, x => env.username x

/-- The pattern loop of main.py lines 97-107: first matching pattern whose
resolver returns a truthy channel id wins; a resolver that raises or
returns a falsy value (None or the empty string) sends the loop on to the
next pattern. -/
def tryPatterns (env : ResolverEnv) : List ChanPattern → List Char → Option (List Char)
  | [], _ => none
  | p :: ps, u =>
    match chanMatch u p with
    | none => tryPatterns env ps u
    | some ident =>
      match runResolver env p ident with
      | Except.ok (some cid) => if cid.isEmpty then tryPatterns env ps u else some cid
      | Except.ok none => tryPatterns env ps u
      | Except.error _ => tryPatterns env ps u

/-- Embedding of `extract_channel_id` (main.py lines 75-114): clean the URL,
run the pattern loop, and when it yields nothing fall back to
`resolve_channel_url` on the cleaned URL; a raising fallback gives `none`. -/
def extract_channel_id (env : ResolverEnv) (channel_url : List Char) : Option (List Char) :=
  let u := cleanUrl channel_url
  match tryPatterns env chanPatternList u with
  | some cid => some cid
  | none =>
    match env.channelUrl u with
    | Except.ok r => r
    | Except.error _ => none

/-- Oracle environment whose lookups all report zero items; used in scratch
checks below. -/
def envNone : ResolverEnv :=
  ⟨fun _ => Except.ok none, fun _ => Except.ok none,
   fun _ => Except.ok none, fun _ => Except.ok none⟩

/-! ### Transcript segments and save_transcript's SRT branch
(main.py lines 42-73)

Segment times are Python floats; they are embedded as exact rationals
(the floats occurring in transcripts and in the spec's scenario are dyadic,
so the embedding is exact on them).  `duration` is optional because the SRT
writer reads it with `entry.get('duration', 0)`. -/

structure Segment where
  text : String
  start : ℚ
  duration : Option ℚ
deriving DecidableEq

/-- Python `x // y` on floats: floor division, result again a number. -/
def pyFloorDiv (x y : ℚ) : ℚ :=
  ((x / y).floor : ℤ)

/-- Python `x % y` on numbers: remainder with the sign of the divisor. -/
def pyMod (x y : ℚ) : ℚ :=
  x - y * ((x / y).floor : ℤ)

/-- Python `int()` on a number: truncation toward zero. -/
def pyTruncInt (x : ℚ) : ℤ :=
  if x < 0 then -(-x).floor else x.floor

/-- Zero-pad a digit string on the left to the given width. -/
def padZeros (w : Nat) (s : String) : String :=
  if s.length < w then String.mk (List.replicate (w - s.length) '0') ++ s else s

/-- Python's `f"{n:0Wd}"`: minimum width `w`, zero padding after the sign. -/
def pyFmtZero (w : Nat) (n : ℤ) : String :=
  if n < 0 then "-" ++ padZeros (w - 1) (toString n.natAbs) else padZeros w (toString n.toNat)

/-- The SRT timestamp of main.py lines 68-69:
`f"{int(t//3600):02d}:{int((t%3600)//60):02d}:{int(t%60):02d},{int((t%1)*1000):03d}"`. -/
def srtTime (t : ℚ) : String :=
  pyFmtZero 2 (pyTruncInt (pyFloorDiv t 3600)) ++ ":" ++
  pyFmtZero 2 (pyTruncInt (pyFloorDiv (pyMod t 3600) 60)) ++ ":" ++
  pyFmtZero 2 (pyTruncInt (pyMod t 60)) ++ "," ++
  pyFmtZero 3 (pyTruncInt (pyMod t 1 * 1000))

/-- Text of one SRT cue: number line, timestamp line with
`end = start + duration` (duration defaulting to 0), the text, and the
blank-line separator (main.py lines 62-73, one loop iteration). -/
def srtCue (n : Nat) (e : Segment) : String :=
  toString n ++ "\n" ++
  srtTime e.start ++ " --> " ++ srtTime (e.start + e.duration.getD 0) ++ "\n" ++
  e.text ++ "\n\n"

/-- The SRT loop of main.py lines 62-73: `enumerate(transcript, 1)` with a
running counter. -/
def srtBody : Nat → List Segment → String
  | _, [] => ""
  | n, e :: rest => srtCue n e ++ srtBody (n + 1) rest

/-- Content written by `save_transcript` in the SRT branch
(main.py lines 60-73). -/
def save_transcript_srt (transcript : List Segment) : String :=
  srtBody 1 transcript

/-- Concatenation of a list of strings (used to state the exporter claims
without the loop counter). -/
def strConcat : List String → String
  | [] => ""
  | s :: rest => s ++ strConcat rest

/-! ### save_transcript's JSON branch (main.py lines 51-53)

The branch is `json.dump(transcript, f, ensure_ascii=False, indent=2)`.
The segment dicts are embedded as JSON values (strings and numbers), the
string escaping of `ensure_ascii=False` is modelled character by character,
and the indent-2 text layout of the dump is reproduced for the two-level
shape the program writes (an array of flat objects). -/

/-- Lower-case hexadecimal digit. -/
def hexDigit (n : Nat) : Char :=
  if n < 10 then Char.ofNat ('0'.toNat + n) else Char.ofNat ('a'.toNat + n - 10)

/-- Value of one lower-case hexadecimal digit. -/
def hexVal (c : Char) : Nat :=
  if ('0' ≤ c ∧ c ≤ '9') then c.toNat - '0'.toNat
  else if ('a' ≤ c ∧ c ≤ 'f') then c.toNat - 'a'.toNat + 10
  else 0

/-- JSON escaping of one character as Python's `json.dump` does with
`ensure_ascii=False`: escape the quote, the backslash and control
characters (short escapes for \n \t \r \b \f, `\u00xx` otherwise); every
other character — in particular every non-ASCII character — is written
literally. -/
def escapeChar (c : Char) : List Char :=
  if c = Char.ofNat 34 then ['\\', Char.ofNat 34]
  else if c = '\\' then ['\\', '\\']
  else if c = '\n' then ['\\', 'n']
  else if c = '\t' then ['\\', 't']
  else if c = '\r' then ['\\', 'r']
  else if c = Char.ofNat 8 then ['\\', 'b']
  else if c = Char.ofNat 12 then ['\\', 'f']
  else if c.toNat < 32 then
    ['\\', 'u', '0', '0', hexDigit (c.toNat / 16), hexDigit (c.toNat % 16)]
  else [c]

/-- Escape a whole string (content between the quotes of a JSON string). -/
def escapeList : List Char → List Char
  | [] => []
  | c :: rest => escapeChar c ++ escapeList rest

mutual

/-- Inverse of JSON string escaping: the unescaping a JSON parser performs
on the content of a string literal.  `unescAfterSlash` handles the
character following a backslash, `unescAfterU` the four hex digits of a
`\u` escape. -/
def unescapeList : List Char → List Char
  | [] => []
  | c :: rest => if c = '\\' then unescAfterSlash rest else c :: unescapeList rest
termination_by l => l.length

def unescAfterSlash : List Char → List Char
  | [] => []
  | e :: rest2 =>
    if e = 'u' then unescAfterU rest2
    else if e = 'n' then '\n' :: unescapeList rest2
    else if e = 't' then '\t' :: unescapeList rest2
    else if e = 'r' then '\r' :: unescapeList rest2
    else if e = 'b' then Char.ofNat 8 :: unescapeList rest2
    else if e = 'f' then Char.ofNat 12 :: unescapeList rest2
    else e :: unescapeList rest2
termination_by l => l.length

def unescAfterU : List Char → List Char
  | a :: b :: c2 :: d :: rest3 =>
    Char.ofNat (((hexVal a * 16 + hexVal b) * 16 + hexVal c2) * 16 + hexVal d) ::
      unescapeList rest3
  | _ => []
termination_by l => l.length

end

/-- JSON scalar values occurring in a transcript segment dict. -/
inductive JValue where
  | jstr : String → JValue
  | jnum : ℚ → JValue
deriving DecidableEq

/-- JSON object (ordered key/value list, as Python preserves dict order). -/
abbrev JObject := List (String × JValue)

/-- The JSON object `json.dump` writes for one segment: exactly the dict's
own fields in insertion order, no derived fields.  A segment without a
duration field has no `duration` key. -/
def segToJson (e : Segment) : JObject :=
  [("text", JValue.jstr e.text), ("start", JValue.jnum e.start)] ++
    (match e.duration with
     | some d => [("duration", JValue.jnum d)]
     | none => [])

/-- The JSON document for a transcript: the full segment sequence. -/
def transcriptToJson (ts : List Segment) : List JObject :=
  ts.map segToJson

/-- Key lookup in a parsed JSON object. -/
def lookupKey (o : JObject) (k : String) : Option JValue :=
  (o.find? (fun p => p.1 == k)).map (fun p => p.2)

/-- Parsing one segment back from its JSON object. -/
def jsonToSeg (o : JObject) : Option Segment :=
  match lookupKey o "text", lookupKey o "start" with
  | some (JValue.jstr t), some (JValue.jnum st) =>
    match lookupKey o "duration" with
    | some (JValue.jnum d) => some ⟨t, st, some d⟩
    | none => some ⟨t, st, none⟩
    | some _ => none
  | _, _ => none

/-- Parsing a transcript document back into a segment list; fails if any
object fails to parse. -/
def jsonToTranscript : List JObject → Option (List Segment)
  | [] => some []
  | o :: rest =>
    match jsonToSeg o, jsonToTranscript rest with
    | some e, some es => some (e :: es)
    | _, _ => none

/-- Decimal rendering of a number as Python's `repr` of a float prints the
dyadic rationals that arise from transcripts (`61.5`, `2.25`, `61.0`); up
to 17 fractional digits, enough for every double. -/
def fracDigits : Nat → Nat → Nat → List Char
  | 0, _, _ => []
  | _ + 1, 0, _ => []
  | fuel + 1, r, d => hexDigit (r * 10 / d) :: fracDigits fuel (r * 10 % d) d

/-- Number rendering used in the JSON dump. -/
def renderNum (q : ℚ) : String :=
  let sign := if q < 0 then "-" else ""
  let a := q.num.natAbs
  let ip := a / q.den
  let r := a % q.den
  if r = 0 then sign ++ toString ip ++ ".0"
  else sign ++ toString ip ++ "." ++ String.mk (fracDigits 17 r q.den)

/-- Rendering of a JSON string literal, quotes included. -/
def renderJString (s : String) : String :=
  String.mk (Char.ofNat 34 :: escapeList s.data ++ [Char.ofNat 34])

/-- Rendering of one scalar value. -/
def renderJVal : JValue → String
  | JValue.jstr t => renderJString t
  | JValue.jnum q => renderNum q

/-- Rendering of one segment object at indent depth 1, as
`json.dump(..., indent=2)` lays it out: keys at four spaces, closing brace
at two. -/
def renderSegObj (o : JObject) : String :=
  if o.isEmpty then "\x7b\x7d"
  else
    "\x7b\n" ++
      strConcat (List.intersperse ",\n"
        (o.map (fun p => "    " ++ renderJString p.1 ++ ": " ++ renderJVal p.2))) ++
      "\n  \x7d"

/-- Content written by `save_transcript` in the JSON branch: the document
rendered with 2-space indentation. -/
def save_transcript_json (ts : List Segment) : String :=
  let l := transcriptToJson ts
  if l.isEmpty then "[]"
  else "[\n" ++ strConcat (List.intersperse ",\n" (l.map (fun o => "  " ++ renderSegObj o))) ++ "\n]"

/-! ### get_channel_videos (main.py lines 246-292)

One page of the paginated `search().list` call: the `videoId` field of each
item (collapsing the defensive `isinstance`/key checks of lines 276-277
into `none` for any malformed item), and whether a `nextPageToken` was
returned.  The service is an oracle: the list of responses the successive
calls would get, `Except.error` standing for a call that raises. -/

structure Page where
  items : List (Option String)
  hasNext : Bool
deriving DecidableEq

/-- Ids collected from one page: items with a missing id field and items
with a falsy (empty) id are skipped (main.py lines 275-279). -/
def pageIds (p : Page) : List String :=
  p.items.filterMap (fun it =>
    match it with
    | some v => if v.isEmpty then none else some v
    | none => none)

/-- Embedding of the pagination loop of `get_channel_videos`: accumulate
page by page; stop after a page without continuation token; on a raising
call stop and return what has been accumulated so far. -/
def get_channel_videos : List (Except String Page) → List String
  | [] => []
  | Except.error _ :: _ => []
  | Except.ok p :: rest => pageIds p ++ (if p.hasNext then get_channel_videos rest else [])

/-! ### The per-video counter loop of download_channel_transcripts
(main.py lines 332-362) -/

/-- Substring test, Python's `in` on strings. -/
def containsSub (pat : List Char) : List Char → Bool
  | [] => pat.isEmpty
  | c :: tail => pat.isPrefixOf (c :: tail) || containsSub pat tail

/-- The error-message marker distinguishing the no-captions class
(main.py line 349). -/
def noTranscriptsMsg : List Char :=
  ("No transcripts were found").toList

/-- Outcome of processing one video inside the loop: the transcript was
fetched and saved, or an exception with the given message was caught. -/
inductive VideoOutcome where
  | saved
  | error (msg : String)
deriving DecidableEq

/-- Counters of one channel run (main.py lines 332-334). -/
structure Tally where
  successful : Nat
  no_captions : Nat
  failed : Nat
deriving DecidableEq

/-- One iteration of the loop body's accounting (main.py lines 336-355). -/
def tallyStep (t : Tally) : VideoOutcome → Tally
  | VideoOutcome.saved => { t with successful := t.successful + 1 }
  | VideoOutcome.error m =>
    if containsSub noTranscriptsMsg m.toList then
      { t with no_captions := t.no_captions + 1 }
    else
      { t with failed := t.failed + 1 }

/-- The whole loop: every video is processed, no outcome aborts it. -/
def runTally (l : List VideoOutcome) : Tally :=
  l.foldl tallyStep ⟨0, 0, 0⟩

/-- Classification predicate: outcome counts as a successful save. -/
def isSaved : VideoOutcome → Bool
  | VideoOutcome.saved => true
  | VideoOutcome.error _ => false

/-- Classification predicate: outcome counts as "no captions". -/
def isNoCaptions : VideoOutcome → Bool
  | VideoOutcome.saved => false
  | VideoOutcome.error m => containsSub noTranscriptsMsg m.toList

/-- Classification predicate: outcome counts as a download failure. -/
def isFailure : VideoOutcome → Bool
  | VideoOutcome.saved => false
  | VideoOutcome.error m => !containsSub noTranscriptsMsg m.toList

/-! ### download_multiple_video_transcripts (main.py lines 405-475)

The file is a list of lines; the transcript fetch is an oracle from video
id to either a transcript or a raised message.  Saving appends the output
file (named by the video id) to an append-only list that models the output
directory: nothing in the loop ever deletes a file written earlier. -/

/-- State accumulated by the batch loop: counters, the files on disk in
creation order, how many items were processed, and how often the
`if not video_id` branch of main.py lines 446-449 was taken. -/
structure BatchState where
  successful : Nat
  failed : Nat
  files : List (List Char)
  processed : Nat
  extractFailures : Nat
deriving DecidableEq

/-- One iteration of the loop of main.py lines 440-465. -/
def processUrl (fetch : List Char → Except String (List Segment))
    (st : BatchState) (url : List Char) : BatchState :=
  let vid := extract_video_id url
  if vid.isEmpty then
    { st with failed := st.failed + 1, processed := st.processed + 1,
              extractFailures := st.extractFailures + 1 }
  else
    match fetch vid with
    | Except.ok _ =>
      { st with successful := st.successful + 1, processed := st.processed + 1,
                files := st.files ++ [vid] }
    | Except.error _ =>
      { st with failed := st.failed + 1, processed := st.processed + 1 }

/-- The line filter of main.py line 431:
`[line.strip() for line in f if line.strip()]`. -/
def nonBlankLines (lines : List (List Char)) : List (List Char) :=
  (lines.map pyStrip).filter (fun l => !l.isEmpty)

/-- Embedding of `download_multiple_video_transcripts` after the format
prompt: process every non-blank line in order. -/
def download_multiple_video_transcripts
    (fetch : List Char → Except String (List Segment))
    (lines : List (List Char)) : BatchState :=
  (nonBlankLines lines).foldl (processUrl fetch) ⟨0, 0, [], 0, 0⟩

/-- Specification-side classifier: the line yields a non-empty video id and
its transcript fetch succeeds. -/
def lineOk (fetch : List Char → Except String (List Segment)) (u : List Char) : Bool :=
  !(extract_video_id u).isEmpty &&
    (match fetch (extract_video_id u) with
     | Except.ok _ => true
     | Except.error _ => false)

/-- Specification-side file produced by one line: the output file named by
the video id, present exactly when the line succeeds. -/
def fileOf (fetch : List Char → Except String (List Segment)) (u : List Char) :
    Option (List Char) :=
  if lineOk fetch u then some (extract_video_id u) else none

/-! ### get_output_format (main.py lines 22-40) and the prompt/network
order of the three workflows

User input attempts are scripted: `none` is a non-numeric entry (the
`ValueError` branch), `some n` a numeric entry.  The real loop blocks until
a valid entry arrives; on an exhausted script the model returns `none`. -/

/-- The `OutputFormat` enum of main.py lines 16-20, in declaration order
(which is the order the 1-3 menu uses). -/
inductive OutputFormat where
  | json
  | txt
  | srt
deriving DecidableEq

/-- Embedding of the `while True` selection loop: re-prompt on any invalid
entry, return the `choice - 1`-th format on a valid one. -/
def get_output_format : List (Option Int) → Option OutputFormat
  | [] => none
  | some n :: rest =>
    if 1 ≤ n ∧ n ≤ 3 then
      some (if n = 1 then OutputFormat.json else if n = 2 then OutputFormat.txt
            else OutputFormat.srt)
    else get_output_format rest
  | none :: rest => get_output_format rest

/-- An input attempt the menu rejects: non-numeric, or a number outside
1-3. -/
def isInvalidEntry : Option Int → Bool
  | none => true
  | some n => decide (n < 1) || decide (3 < n)

/-! ### Event traces of the three workflows

Observable events, in the order each workflow performs them: a
channel-resolution API call, a video-list (pagination) API call, a
transcript-fetch call, the output-format prompt, and the user-visible
abort message of an unresolved channel. -/

inductive Ev where
  | netResolve
  | netList
  | netFetch
  | promptFormat
  | printChanError
deriving DecidableEq

/-- Network events of one resolver: the `.channel` pattern's resolver is
`lambda x: x` and makes no API call, the three others each make one. -/
def resolverEvents : ChanPattern → List Ev
  | ChanPattern.channel => []
  | _ => [Ev.netResolve]

/-- Trace-producing version of the pattern loop of main.py lines 97-107. -/
def tryPatternsT (env : ResolverEnv) : List ChanPattern → List Char → List Ev × Option (List Char)
  | [], _ => ([], none)
  | p :: ps, u =>
    match chanMatch u p with
    | none => tryPatternsT env ps u
    | some ident =>
      match runResolver env p ident with
      | Except.ok (some cid) =>
        if cid.isEmpty then
          (resolverEvents p ++ (tryPatternsT env ps u).1, (tryPatternsT env ps u).2)
        else (resolverEvents p, some cid)
      | Except.ok none =>
        (resolverEvents p ++ (tryPatternsT env ps u).1, (tryPatternsT env ps u).2)
      | Except.error _ =>
        (resolverEvents p ++ (tryPatternsT env ps u).1, (tryPatternsT env ps u).2)

/-- Trace-producing version of `extract_channel_id`: the fallback
`resolve_channel_url` call (main.py lines 109-114) is one more API call. -/
def extract_channel_idT (env : ResolverEnv) (channel_url : List Char) :
    List Ev × Option (List Char) :=
  let u := cleanUrl channel_url
  match tryPatternsT env chanPatternList u with
  | (evs, some cid) => (evs, some cid)
  | (evs, none) =>
    match env.channelUrl u with
    | Except.ok r => (evs ++ [Ev.netResolve], r)
    | Except.error _ => (evs ++ [Ev.netResolve], none)

/-- Trace-producing version of the pagination loop: one `netList` event per
call issued. -/
def get_channel_videosT : List (Except String Page) → List Ev × List String
  | [] => ([], [])
  | Except.error _ :: _ => ([Ev.netList], [])
  | Except.ok p :: rest =>
    if p.hasNext then
      (Ev.netList :: (get_channel_videosT rest).1, pageIds p ++ (get_channel_videosT rest).2)
    else ([Ev.netList], pageIds p)

/-- Event trace of workflow (1), `download_channel_transcripts`
(main.py lines 294-366): resolve the channel first; on failure print the
abort message and stop; otherwise prompt for the format, then enumerate
pages, then fetch one transcript per enumerated video. -/
def download_channel_transcriptsT (env : ResolverEnv)
    (pages : List (Except String Page)) (channel_url : List Char) : List Ev :=
  match extract_channel_idT env channel_url with
  | (evs, none) => evs ++ [Ev.printChanError]
  | (evs, some _) =>
    evs ++ [Ev.promptFormat] ++ (get_channel_videosT pages).1 ++
      (get_channel_videosT pages).2.map (fun _ => Ev.netFetch)

/-- Event trace of workflow (2), `download_single_video_transcript`
(main.py lines 368-403): the format prompt comes first, video-id extraction
is pure, then the one transcript fetch. -/
def download_single_video_transcriptT (_video_url : List Char) : List Ev :=
  [Ev.promptFormat] ++ [Ev.netFetch]

/-- Event trace of workflow (3), `download_multiple_video_transcripts`
(main.py lines 405-475): the format prompt comes before the loop, which
then fetches once per non-blank line. -/
def download_multiple_video_transcriptsT (lines : List (List Char)) : List Ev :=
  [Ev.promptFormat] ++ (nonBlankLines lines).map (fun _ => Ev.netFetch)

/-! ### Concrete fixtures used by closed counterexamples and witnesses -/

/-- Oracle whose custom-URL search succeeds; used to exhibit the channel
workflow's resolution call happening before the format prompt. -/
def envSucceedCustom : ResolverEnv :=
  ⟨fun _ => Except.ok (some (("UCY").toList)), fun _ => Except.ok none,
   fun _ => Except.ok none, fun _ => Except.ok none⟩

/-- Oracle whose free-text channel search succeeds exactly on the query
`"foo/"`; it distinguishes the original URL string from its cleaned form. -/
def envFallbackProbe : ResolverEnv :=
  ⟨fun _ => Except.ok none, fun _ => Except.ok none, fun _ => Except.ok none,
   fun q => if q = ("foo/").toList then Except.ok (some (("UCX").toList))
            else Except.ok none⟩

/-- Three-line URL file of the batch scenario: a good line, a blank line,
and a line whose video has no fetchable transcript. -/
def scenarioLines : List (List Char) :=
  [("https://youtu.be/id1").toList, ("   ").toList, ("https://youtu.be/bad1").toList]

/-- Fetch oracle of the batch scenario: only video `id1` has a
transcript. -/
def scenarioFetch (vid : List Char) : Except String (List Segment) :=
  if vid = ("id1").toList then Except.ok [⟨"hello", 0, some 1⟩]
  else Except.error "transcript fetch failed"

/-! ## Helper lemmas -/

theorem tally_foldl (l : List VideoOutcome) : ∀ t : Tally,
    l.foldl tallyStep t =
      ⟨t.successful + l.countP isSaved, t.no_captions + l.countP isNoCaptions,
       t.failed + l.countP isFailure⟩ := by
  induction l with
  | nil => intro t; simp
  | cons o l ih =>
    intro t
    cases o with
    | saved =>
      rw [List.foldl_cons, ih]
      simp [tallyStep, List.countP_cons, isSaved, isNoCaptions, isFailure, Nat.add_assoc,
        Nat.add_comm 1]
    | error m =>
      rw [List.foldl_cons, ih]
      cases hc : containsSub noTranscriptsMsg m.data with
      | true =>
        simp [tallyStep, String.toList, hc, List.countP_cons, isSaved, isNoCaptions, isFailure,
          Nat.add_assoc, Nat.add_comm 1]
      | false =>
        simp [tallyStep, String.toList, hc, List.countP_cons, isSaved, isNoCaptions, isFailure,
          Nat.add_assoc, Nat.add_comm 1]

theorem tally_partition (l : List VideoOutcome) :
    l.countP isSaved + l.countP isNoCaptions + l.countP isFailure = l.length := by
  induction l with
  | nil => simp
  | cons o l ih =>
    cases o with
    | saved =>
      simp [List.countP_cons, isSaved, isNoCaptions, isFailure]
      omega
    | error m =>
      cases hc : containsSub noTranscriptsMsg m.data <;>
        simp [List.countP_cons, isSaved, isNoCaptions, isFailure, String.toList, hc] <;> omega

theorem get_channel_videos_stops (ps : List Page) (hn : ∀ p ∈ ps, p.hasNext = true)
    (e : String) (rest : List (Except String Page)) :
    get_channel_videos (ps.map Except.ok ++ Except.error e :: rest)
      = (ps.map pageIds).flatten := by
  induction ps with
  | nil => rfl
  | cons p ps ih =>
    have hp : p.hasNext = true := hn p (List.mem_cons_self p ps)
    simp only [List.map_cons, List.cons_append, get_channel_videos, hp, if_true,
      List.flatten_cons, List.append_eq]
    rw [ih (fun q hq => hn q (List.mem_cons_of_mem p hq))]

theorem get_channel_videos_complete (ps : List Page) (hn : ∀ p ∈ ps, p.hasNext = true)
    (q : Page) (hq : q.hasNext = false) :
    get_channel_videos (ps.map Except.ok ++ [Except.ok q])
      = (ps.map pageIds).flatten ++ pageIds q := by
  induction ps with
  | nil => simp [get_channel_videos, hq]
  | cons p ps ih =>
    have hp : p.hasNext = true := hn p (List.mem_cons_self p ps)
    simp only [List.map_cons, List.cons_append, get_channel_videos, hp, if_true,
      List.flatten_cons, List.append_eq]
    rw [ih (fun r hr => hn r (List.mem_cons_of_mem p hr))]
    simp [List.append_assoc]

theorem pageIds_skips_malformed (items : List (Option String)) (b : Bool) :
    pageIds ⟨items, b⟩ = (items.filterMap id).filter (fun v => !v.isEmpty) := by
  induction items with
  | nil => rfl
  | cons it items ih =>
    cases it with
    | none => simpa [pageIds, List.filterMap_cons] using ih
    | some v =>
      cases hv : v.isEmpty <;>
        simp_all [pageIds, List.filterMap_cons, List.filter_cons, hv]

theorem tryCapture_ne_nil {lit : List Char} {p : Char → Bool} {s cap : List Char}
    (h : tryCapture lit p s = some cap) : cap ≠ [] := by
  unfold tryCapture at h
  by_cases hp : lit.isPrefixOf s
  · rw [if_pos hp] at h
    by_cases he : ((s.drop lit.length).takeWhile p).isEmpty
    · rw [if_pos he] at h; exact absurd h (by simp)
    · rw [if_neg he] at h
      cases h
      simpa [List.isEmpty_iff] using he
  · rw [if_neg hp] at h; exact absurd h (by simp)

theorem searchCapture_ne_nil {lit : List Char} {p : Char → Bool} :
    ∀ {s cap : List Char}, searchCapture lit p s = some cap → cap ≠ [] := by
  intro s
  induction s with
  | nil => intro cap h; exact tryCapture_ne_nil (by simpa [searchCapture] using h)
  | cons c cs ih =>
    intro cap h
    rw [searchCapture] at h
    cases ht : tryCapture lit p (c :: cs) with
    | some cap2 => rw [ht] at h; cases h; exact tryCapture_ne_nil ht
    | none => rw [ht] at h; exact ih h

theorem findFirstCapture_ne_nil :
    ∀ {pats : List (List Char)} {s cap : List Char},
      findFirstCapture pats s = some cap → cap ≠ [] := by
  intro pats
  induction pats with
  | nil => intro s cap h; exact absurd h (by simp [findFirstCapture])
  | cons lit rest ih =>
    intro s cap h
    rw [findFirstCapture] at h
    cases hs : searchCapture lit isIdChar s with
    | some cap2 => rw [hs] at h; cases h; exact searchCapture_ne_nil hs
    | none => rw [hs] at h; exact ih h

theorem extract_video_id_ne_nil {s : List Char} (h : s ≠ []) : extract_video_id s ≠ [] := by
  unfold extract_video_id
  cases hf : findFirstCapture videoPatterns s with
  | some cap => exact findFirstCapture_ne_nil hf
  | none => exact h

theorem batch_foldl (fetch : List Char → Except String (List Segment))
    (l : List (List Char)) : ∀ st : BatchState,
    l.foldl (processUrl fetch) st =
      ⟨st.successful + l.countP (lineOk fetch),
       st.failed + l.countP (fun u => !lineOk fetch u),
       st.files ++ l.filterMap (fileOf fetch),
       st.processed + l.length,
       st.extractFailures + l.countP (fun u => (extract_video_id u).isEmpty)⟩ := by
  induction l with
  | nil => intro st; simp
  | cons u l ih =>
    intro st
    rw [List.foldl_cons, ih]
    cases hv : (extract_video_id u).isEmpty with
    | true =>
      have hok : lineOk fetch u = false := by simp [lineOk, hv]
      simp [processUrl, hv, hok, fileOf, List.countP_cons, List.filterMap_cons, Nat.add_assoc,
        Nat.add_comm 1]
    | false =>
      cases hf : fetch (extract_video_id u) with
      | ok tr =>
        have hok : lineOk fetch u = true := by simp [lineOk, hv, hf]
        simp [processUrl, hv, hf, hok, fileOf, List.countP_cons, List.filterMap_cons,
          Nat.add_assoc, Nat.add_comm 1]
      | error msg =>
        have hok : lineOk fetch u = false := by simp [lineOk, hv, hf]
        simp [processUrl, hv, hf, hok, fileOf, List.countP_cons, List.filterMap_cons,
          Nat.add_assoc, Nat.add_comm 1]

theorem nonBlankLines_ne_nil {lines : List (List Char)} {u : List Char}
    (h : u ∈ nonBlankLines lines) : u ≠ [] := by
  have := List.of_mem_filter h
  simpa [List.isEmpty_iff] using this

theorem batch_no_extract_failures (lines : List (List Char)) :
    (nonBlankLines lines).countP (fun u => (extract_video_id u).isEmpty) = 0 := by
  rw [List.countP_eq_zero]
  intro u hu
  have h1 : u ≠ [] := nonBlankLines_ne_nil hu
  have h2 : extract_video_id u ≠ [] := extract_video_id_ne_nil h1
  simpa [List.isEmpty_iff] using h2

theorem jsonToSeg_segToJson (e : Segment) : jsonToSeg (segToJson e) = some e := by
  obtain ⟨t, st, d⟩ := e
  cases d <;> rfl

theorem json_value_roundtrip (ts : List Segment) :
    jsonToTranscript (transcriptToJson ts) = some ts := by
  induction ts with
  | nil => rfl
  | cons e ts ih =>
    simp only [transcriptToJson, List.map_cons, jsonToTranscript, jsonToSeg_segToJson]
    rw [show jsonToTranscript (ts.map segToJson) = some ts from ih]

theorem hexVal_hexDigit : ∀ m : Nat, m < 16 → hexVal (hexDigit m) = m := by decide

theorem unescape_escapeChar (c : Char) (E : List Char) :
    unescapeList (escapeChar c ++ E) = c :: unescapeList E := by
  by_cases h1 : c = Char.ofNat 34
  · subst h1; simp [escapeChar, unescapeList, unescAfterSlash]
  by_cases h2 : c = '\\'
  · subst h2; simp [escapeChar, unescapeList, unescAfterSlash]
  by_cases h3 : c = '\n'
  · subst h3; simp [escapeChar, unescapeList, unescAfterSlash]
  by_cases h4 : c = '\t'
  · subst h4; simp [escapeChar, unescapeList, unescAfterSlash]
  by_cases h5 : c = '\r'
  · subst h5; simp [escapeChar, unescapeList, unescAfterSlash]
  by_cases h6 : c = Char.ofNat 8
  · subst h6; simp [escapeChar, unescapeList, unescAfterSlash]
  by_cases h7 : c = Char.ofNat 12
  · subst h7; simp [escapeChar, unescapeList, unescAfterSlash]
  by_cases h8 : c.toNat < 32
  · have hc : escapeChar c =
        ['\\', 'u', '0', '0', hexDigit (c.toNat / 16), hexDigit (c.toNat % 16)] := by
      simp [escapeChar, h1, h2, h3, h4, h5, h6, h7, h8]
    rw [hc]
    have hu : unescapeList
        ('\\' :: 'u' :: '0' :: '0' :: hexDigit (c.toNat / 16) :: hexDigit (c.toNat % 16) :: E)
        = Char.ofNat (((hexVal '0' * 16 + hexVal '0') * 16 + hexVal (hexDigit (c.toNat / 16)))
            * 16 + hexVal (hexDigit (c.toNat % 16))) :: unescapeList E := by
      simp [unescapeList, unescAfterSlash, unescAfterU]
    rw [List.cons_append, List.cons_append, List.cons_append, List.cons_append,
      List.cons_append, List.cons_append, List.nil_append]
    rw [hu]
    have hv1 : hexVal (hexDigit (c.toNat / 16)) = c.toNat / 16 :=
      hexVal_hexDigit _ (by omega)
    have hv2 : hexVal (hexDigit (c.toNat % 16)) = c.toNat % 16 :=
      hexVal_hexDigit _ (by omega)
    rw [hv1, hv2]
    have hval : ((hexVal '0' * 16 + hexVal '0') * 16 + c.toNat / 16) * 16 + c.toNat % 16
        = c.toNat := by
      have h0 : hexVal '0' = 0 := rfl
      rw [h0]
      omega
    rw [hval, Char.ofNat_toNat]
  · have hc : escapeChar c = [c] := by
      simp [escapeChar, h1, h2, h3, h4, h5, h6, h7, h8]
    rw [hc, List.cons_append, List.nil_append]
    rw [unescapeList, if_neg h2]

theorem unescape_escape (s : List Char) : unescapeList (escapeList s) = s := by
  induction s with
  | nil => simp [escapeList, unescapeList]
  | cons c rest ih => rw [escapeList, unescape_escapeChar, ih]

theorem srtBody_enumFrom (ts : List Segment) : ∀ n : Nat,
    srtBody n ts = strConcat ((ts.enumFrom n).map (fun p => srtCue p.1 p.2)) := by
  induction ts with
  | nil => intro n; rfl
  | cons e ts ih =>
    intro n
    rw [srtBody, List.enumFrom, List.map_cons, strConcat, ih]

theorem enumFrom_add {α : Type} (l : List α) : ∀ n k : Nat,
    l.enumFrom (n + k) = (l.enumFrom n).map (fun p => (p.1 + k, p.2)) := by
  induction l with
  | nil => intro n k; rfl
  | cons a l ih =>
    intro n k
    rw [List.enumFrom, List.enumFrom, List.map_cons]
    have : n + 1 + k = n + k + 1 := by omega
    rw [← this, ih]

theorem save_transcript_srt_spec (ts : List Segment) :
    save_transcript_srt ts = strConcat (ts.enum.map (fun p => srtCue (p.1 + 1) p.2)) := by
  rw [save_transcript_srt, srtBody_enumFrom]
  have h : ts.enumFrom 1 = (ts.enumFrom 0).map (fun p => (p.1 + 1, p.2)) := by
    have := enumFrom_add ts 0 1
    simpa using this
  rw [show ts.enum = ts.enumFrom 0 from rfl, h, List.map_map]
  rfl

theorem escapeChar_nonascii (c : Char) (h : 128 ≤ c.toNat) : escapeChar c = [c] := by
  have h1 : c ≠ Char.ofNat 34 := by intro he; rw [he] at h; exact absurd h (by decide)
  have h2 : c ≠ '\\' := by intro he; rw [he] at h; exact absurd h (by decide)
  have h3 : c ≠ '\n' := by intro he; rw [he] at h; exact absurd h (by decide)
  have h4 : c ≠ '\t' := by intro he; rw [he] at h; exact absurd h (by decide)
  have h5 : c ≠ '\r' := by intro he; rw [he] at h; exact absurd h (by decide)
  have h6 : c ≠ Char.ofNat 8 := by intro he; rw [he] at h; exact absurd h (by decide)
  have h7 : c ≠ Char.ofNat 12 := by intro he; rw [he] at h; exact absurd h (by decide)
  have h8 : ¬(c.toNat < 32) := by omega
  simp [escapeChar, h1, h2, h3, h4, h5, h6, h7, h8]

/-! ### Lemmas about leftmost search (`searchCapture`) -/

theorem prefix_split {l t v : List Char} (h : l <+: t ++ v) :
    l <+: t ∨ (t <+: l ∧ l.drop t.length <+: v) := by
  by_cases hle : l.length ≤ t.length
  · left
    have he := List.prefix_iff_eq_take.mp h
    rw [List.take_append_eq_append_take, Nat.sub_eq_zero_of_le hle, List.take_zero,
      List.append_nil] at he
    rw [he]
    exact List.take_prefix _ _
  · right
    have he := List.prefix_iff_eq_take.mp h
    rw [List.take_append_eq_append_take, List.take_of_length_le (by omega)] at he
    constructor
    · rw [he]; exact List.prefix_append _ _
    · rw [he, List.drop_left]
      exact List.take_prefix _ _

theorem searchCapture_none_inside {q : Char → Bool} {lit : List Char}
    (hbad : ∃ c ∈ lit, q c = false) (p : Char → Bool) :
    ∀ {v : List Char}, (∀ c ∈ v, q c = true) → searchCapture lit p v = none := by
  intro v
  induction v with
  | nil =>
    intro _
    have hlit : ¬(lit.isPrefixOf ([] : List Char) = true) := by
      intro hp
      obtain ⟨c, hc, hqc⟩ := hbad
      have : c ∈ ([] : List Char) :=
        ( List.isPrefixOf_iff_prefix.mp hp).subset hc
      exact absurd this (List.not_mem_nil c)
    simp [searchCapture, tryCapture, hlit]
  | cons c cs ih =>
    intro hv
    have hnp : ¬(lit.isPrefixOf (c :: cs) = true) := by
      intro hp
      obtain ⟨c0, hc0, hqc0⟩ := hbad
      have hmem : c0 ∈ c :: cs :=
        ( List.isPrefixOf_iff_prefix.mp hp).subset hc0
      have := hv c0 hmem
      rw [this] at hqc0
      exact absurd hqc0 (by decide)
    have ht : tryCapture lit p (c :: cs) = none := by
      simp [tryCapture, hnp]
    rw [searchCapture, ht]
    exact ih (fun c0 hc0 => hv c0 (List.mem_cons_of_mem c hc0))

theorem searchCapture_skip {q : Char → Bool} {lit : List Char} (p : Char → Bool) :
    ∀ {pre : List Char}, noOccIn q lit pre →
      ∀ {v : List Char}, (∀ c ∈ v, q c = true) →
      searchCapture lit p (pre ++ v) = searchCapture lit p v := by
  intro pre
  induction pre with
  | nil => intro _ v _; rw [List.nil_append]
  | cons a pre ih =>
    intro hno v hv
    have h0 := hno 0 (by simp)
    have hnp : ¬(lit.isPrefixOf ((a :: pre) ++ v) = true) := by
      intro hp
      rcases prefix_split ( List.isPrefixOf_iff_prefix.mp hp) with hl | ⟨hr, hd⟩
      · exact h0.1 (by simpa using hl)
      · obtain ⟨c, hc, hqc⟩ := h0.2 (by simpa using hr)
        have hcv : c ∈ v := hd.subset (by simpa using hc)
        have := hv c hcv
        rw [this] at hqc
        exact absurd hqc (by decide)
    have ht : tryCapture lit p ((a :: pre) ++ v) = none := by
      simp only [tryCapture]
      rw [if_neg (by simpa using hnp)]
    have hno' : noOccIn q lit pre := by
      intro i hi
      have := hno (i + 1) (by simp at hi ⊢; omega)
      simpa [Nat.succ_sub_succ] using this
    rw [List.cons_append, searchCapture]
    rw [show (tryCapture lit p (a :: (pre ++ v))) = none from ht]
    exact ih hno' hv

theorem searchCapture_boundary {lit : List Char} (hlit : lit ≠ []) (p : Char → Bool)
    {v : List Char} (hv : (v.takeWhile p).isEmpty = false) :
    searchCapture lit p (lit ++ v) = some (v.takeWhile p) := by
  have ht : tryCapture lit p (lit ++ v) = some (v.takeWhile p) := by
    have hp : lit.isPrefixOf (lit ++ v) = true :=
      List.isPrefixOf_iff_prefix.mpr ( List.prefix_append _ _)
    simp only [tryCapture]
    rw [if_pos hp, List.drop_left, if_neg (by simp [hv])]
  obtain ⟨c, cs, rfl⟩ : ∃ c cs, lit = c :: cs := by
    cases lit with
    | nil => exact absurd rfl hlit
    | cons c cs => exact ⟨c, cs, rfl⟩
  rw [List.cons_append, searchCapture]
  rw [show tryCapture (c :: cs) p (c :: (cs ++ v)) = some (v.takeWhile p) by
    simpa using ht]

theorem searchCapture_alphabet {lit : List Char} {p : Char → Bool} :
    ∀ {s cap : List Char}, searchCapture lit p s = some cap → ∀ c ∈ cap, p c = true := by
  intro s
  induction s with
  | nil =>
    intro cap h c hc
    rw [searchCapture] at h
    unfold tryCapture at h
    by_cases hp : lit.isPrefixOf ([] : List Char)
    · rw [if_pos hp] at h
      by_cases he : ((([] : List Char).drop lit.length).takeWhile p).isEmpty
      · rw [if_pos he] at h; cases h
      · rw [if_neg he] at h
        cases h
        exact List.mem_takeWhile_imp hc
    · rw [if_neg hp] at h; cases h
  | cons a cs ih =>
    intro cap h c hc
    rw [searchCapture] at h
    cases htc : tryCapture lit p (a :: cs) with
    | some cap2 =>
      rw [htc] at h
      cases h
      unfold tryCapture at htc
      by_cases hp : lit.isPrefixOf (a :: cs)
      · rw [if_pos hp] at htc
        by_cases he : (((a :: cs).drop lit.length).takeWhile p).isEmpty
        · rw [if_pos he] at htc; cases htc
        · rw [if_neg he] at htc
          cases htc
          exact List.mem_takeWhile_imp hc
      · rw [if_neg hp] at htc; cases htc
    | none =>
      rw [htc] at h
      exact ih h c hc

theorem findFirstCapture_none {pats : List (List Char)} {s : List Char}
    (h : ∀ lit ∈ pats, searchCapture lit isIdChar s = none) :
    findFirstCapture pats s = none := by
  induction pats with
  | nil => rfl
  | cons lit rest ih =>
    rw [findFirstCapture, h lit (List.mem_cons_self lit rest)]
    exact ih (fun l hl => h l (List.mem_cons_of_mem lit hl))

theorem searchCapture_skip_pos {lit : List Char} (hlit : lit ≠ []) (p : Char → Bool) :
    ∀ {pre : List Char}, noOccInPos lit pre → ∀ {v : List Char},
      searchCapture lit p (pre ++ (lit ++ v)) = searchCapture lit p (lit ++ v) := by
  intro pre
  induction pre with
  | nil => intro _ v; rw [List.nil_append]
  | cons a pre ih =>
    intro hno v
    have h0 := hno 0 (by simp)
    have hnp : ¬(lit.isPrefixOf ((a :: pre) ++ (lit ++ v)) = true) := by
      intro hp
      rcases prefix_split ( List.isPrefixOf_iff_prefix.mp hp) with hl | ⟨hr, hd⟩
      · exact h0.1 (by simpa using hl)
      · have h2 := h0.2 (by simpa using hr)
        rcases prefix_split hd with hl2 | ⟨hr2, _⟩
        · exact h2 (by simpa using hl2)
        · have hlen := hr2.length_le
          have hlitlen : 1 ≤ lit.length := by
            cases lit with
            | nil => exact absurd rfl hlit
            | cons c cs => simp
          rw [List.length_drop] at hlen
          have : (a :: pre).length = pre.length + 1 := by simp
          omega
    have ht : tryCapture lit p ((a :: pre) ++ (lit ++ v)) = none := by
      simp only [tryCapture]
      rw [if_neg (by simpa using hnp)]
    have hno' : noOccInPos lit pre := by
      intro i hi
      have := hno (i + 1) (by simp at hi ⊢; omega)
      simpa [Nat.succ_sub_succ] using this
    rw [List.cons_append, searchCapture]
    rw [show (tryCapture lit p (a :: (pre ++ (lit ++ v)))) = none from ht]
    exact ih hno'

theorem shape_match {pre lit : List Char} {p : Char → Bool} (hno : noOccInPos lit pre)
    (hlit : lit ≠ []) {v : List Char} (hv1 : v ≠ []) (hv : ∀ c ∈ v, p c = true) :
    searchCapture lit p (pre ++ lit ++ v) = some v := by
  have ht : v.takeWhile p = v := List.takeWhile_eq_self_iff.mpr hv
  rw [List.append_assoc, searchCapture_skip_pos hlit p hno,
    searchCapture_boundary hlit p (by rw [ht]; simpa [List.isEmpty_iff] using hv1), ht]

theorem shape_nomatch (q : Char → Bool) {pre lit : List Char} {p : Char → Bool}
    (hno : noOccIn q lit pre) (hbad : ∃ c ∈ lit, q c = false) {v : List Char}
    (hv : ∀ c ∈ v, q c = true) :
    searchCapture lit p (pre ++ v) = none := by
  rw [searchCapture_skip p hno hv]
  exact searchCapture_none_inside hbad _ hv

theorem extract_watch_url {v : List Char} (hv1 : v ≠ [])
    (hv : ∀ c ∈ v, isIdChar c = true) :
    extract_video_id (("https://www.youtube.com/watch?v=").toList ++ v) = v := by
  have h1 : searchCapture (("youtube.com/watch?v=").toList) isIdChar
      (("https://www.youtube.com/watch?v=").toList ++ v) = some v := by
    rw [show ("https://www.youtube.com/watch?v=").toList
        = ("https://www.").toList ++ ("youtube.com/watch?v=").toList by decide]
    exact shape_match (by decide) (by decide) hv1 hv
  simp only [extract_video_id, videoPatterns, findFirstCapture, h1]

theorem extract_youtu_be_url {v : List Char} (hv1 : v ≠ [])
    (hv : ∀ c ∈ v, isIdChar c = true) :
    extract_video_id (("https://youtu.be/").toList ++ v) = v := by
  have h1 : searchCapture (("youtube.com/watch?v=").toList) isIdChar
      (("https://youtu.be/").toList ++ v) = none :=
    shape_nomatch isIdChar (by decide) ⟨'.', by decide, by decide⟩ hv
  have h2 : searchCapture (("youtu.be/").toList) isIdChar
      (("https://youtu.be/").toList ++ v) = some v := by
    rw [show ("https://youtu.be/").toList = ("https://").toList ++ ("youtu.be/").toList
      by decide]
    exact shape_match (by decide) (by decide) hv1 hv
  simp only [extract_video_id, videoPatterns, findFirstCapture, h1, h2]

theorem extract_v_url {v : List Char} (hv1 : v ≠ [])
    (hv : ∀ c ∈ v, isIdChar c = true) :
    extract_video_id (("https://www.youtube.com/v/").toList ++ v) = v := by
  have h1 : searchCapture (("youtube.com/watch?v=").toList) isIdChar
      (("https://www.youtube.com/v/").toList ++ v) = none :=
    shape_nomatch isIdChar (by decide) ⟨'.', by decide, by decide⟩ hv
  have h2 : searchCapture (("youtu.be/").toList) isIdChar
      (("https://www.youtube.com/v/").toList ++ v) = none :=
    shape_nomatch isIdChar (by decide) ⟨'.', by decide, by decide⟩ hv
  have h3 : searchCapture (("youtube.com/v/").toList) isIdChar
      (("https://www.youtube.com/v/").toList ++ v) = some v := by
    rw [show ("https://www.youtube.com/v/").toList
        = ("https://www.").toList ++ ("youtube.com/v/").toList by decide]
    exact shape_match (by decide) (by decide) hv1 hv
  simp only [extract_video_id, videoPatterns, findFirstCapture, h1, h2, h3]

theorem extract_embed_url {v : List Char} (hv1 : v ≠ [])
    (hv : ∀ c ∈ v, isIdChar c = true) :
    extract_video_id (("https://www.youtube.com/embed/").toList ++ v) = v := by
  have h1 : searchCapture (("youtube.com/watch?v=").toList) isIdChar
      (("https://www.youtube.com/embed/").toList ++ v) = none :=
    shape_nomatch isIdChar (by decide) ⟨'.', by decide, by decide⟩ hv
  have h2 : searchCapture (("youtu.be/").toList) isIdChar
      (("https://www.youtube.com/embed/").toList ++ v) = none :=
    shape_nomatch isIdChar (by decide) ⟨'.', by decide, by decide⟩ hv
  have h3 : searchCapture (("youtube.com/v/").toList) isIdChar
      (("https://www.youtube.com/embed/").toList ++ v) = none :=
    shape_nomatch isIdChar (by decide) ⟨'.', by decide, by decide⟩ hv
  have h4 : searchCapture (("youtube.com/embed/").toList) isIdChar
      (("https://www.youtube.com/embed/").toList ++ v) = some v := by
    rw [show ("https://www.youtube.com/embed/").toList
        = ("https://www.").toList ++ ("youtube.com/embed/").toList by decide]
    exact shape_match (by decide) (by decide) hv1 hv
  simp only [extract_video_id, videoPatterns, findFirstCapture, h1, h2, h3, h4]

theorem extract_video_id_no_match {s : List Char}
    (h : ∀ lit ∈ videoPatterns, searchCapture lit isIdChar s = none) :
    extract_video_id s = s := by
  unfold extract_video_id
  rw [findFirstCapture_none h]

theorem findFirstCapture_alphabet :
    ∀ {pats : List (List Char)} {s cap : List Char},
      findFirstCapture pats s = some cap → ∀ c ∈ cap, isIdChar c = true := by
  intro pats
  induction pats with
  | nil => intro s cap h; exact absurd h (by simp [findFirstCapture])
  | cons lit rest ih =>
    intro s cap h
    rw [findFirstCapture] at h
    cases hs : searchCapture lit isIdChar s with
    | some cap2 =>
      rw [hs] at h
      cases h
      exact searchCapture_alphabet hs
    | none =>
      rw [hs] at h
      exact ih h

/-! ### Lemmas about URL cleaning and the channel pattern loop -/

theorem dropWhile_head_false {p : Char → Bool} {s : List Char}
    (h : ∀ c, s.head? = some c → p c = false) : s.dropWhile p = s := by
  cases s with
  | nil => rfl
  | cons a t => simp [List.dropWhile_cons, h a rfl]

theorem cleanUrl_noop_of {s : List Char}
    (h1 : ∀ c, s.head? = some c → isWs c = false)
    (h2 : ∀ c, s.reverse.head? = some c → isWs c = false ∧ (c == '/') = false) :
    cleanUrl s = s := by
  unfold cleanUrl pyStrip rstripSlash
  rw [dropWhile_head_false h1, dropWhile_head_false (fun c hc => (h2 c hc).1),
    List.reverse_reverse, dropWhile_head_false (fun c hc => (h2 c hc).2),
    List.reverse_reverse]

theorem reverse_head_mem {pre v : List Char} (hv : v ≠ []) {c : Char}
    (hc : (pre ++ v).reverse.head? = some c) : c ∈ v := by
  rw [List.reverse_append] at hc
  cases hr : v.reverse with
  | nil => exact absurd (by simpa using congrArg List.reverse hr) hv
  | cons c0 cs0 =>
    rw [hr] at hc
    simp only [List.cons_append, List.head?_cons, Option.some.injEq] at hc
    subst hc
    have : c0 ∈ v.reverse := by rw [hr]; exact List.mem_cons_self c0 cs0
    simpa using this

theorem wordDash_not_ws {c : Char} (h : isWordDash c = true) : isWs c = false := by
  have h1 : c ≠ ' ' := by intro he; rw [he] at h; exact absurd h (by decide)
  have h2 : c ≠ '\t' := by intro he; rw [he] at h; exact absurd h (by decide)
  have h3 : c ≠ '\n' := by intro he; rw [he] at h; exact absurd h (by decide)
  have h4 : c ≠ '\r' := by intro he; rw [he] at h; exact absurd h (by decide)
  have h5 : c ≠ '\x0b' := by intro he; rw [he] at h; exact absurd h (by decide)
  have h6 : c ≠ '\x0c' := by intro he; rw [he] at h; exact absurd h (by decide)
  simp [isWs, h1, h2, h3, h4, h5, h6]

theorem wordDash_not_slash {c : Char} (h : isWordDash c = true) : (c == '/') = false := by
  have h1 : c ≠ '/' := by intro he; rw [he] at h; exact absurd h (by decide)
  simpa using h1

theorem nameChar_not_slash_bool {c : Char} (h : isNameChar c = true) : (c == '/') = false := by
  have := (Bool.and_eq_true _ _).mp h
  simpa [isNotSlash] using this.1

theorem nameChar_not_ws {c : Char} (h : isNameChar c = true) : isWs c = false := by
  have := (Bool.and_eq_true _ _).mp h
  simpa using this.2

theorem nameChar_notSlash {c : Char} (h : isNameChar c = true) : isNotSlash c = true := by
  exact ((Bool.and_eq_true _ _).mp h).1

theorem cleanUrl_shape {pre v : List Char} (hh : (pre ++ v).head? = some 'h')
    (hv1 : v ≠ []) (hvw : ∀ c ∈ v, isWs c = false) (hvs : ∀ c ∈ v, (c == '/') = false) :
    cleanUrl (pre ++ v) = pre ++ v := by
  apply cleanUrl_noop_of
  · intro c hc
    rw [hh] at hc
    injection hc with hc'
    subst hc'
    decide
  · intro c hc
    have hm := reverse_head_mem hv1 hc
    exact ⟨hvw c hm, hvs c hm⟩

theorem extract_channel_UC (env : ResolverEnv) {w : List Char} (hw1 : w ≠ [])
    (hw : ∀ c ∈ w, isWordDash c = true) :
    extract_channel_id env (("https://www.youtube.com/channel/UC").toList ++ w)
      = some ('U' :: 'C' :: w) := by
  have hclean : cleanUrl (("https://www.youtube.com/channel/UC").toList ++ w)
      = ("https://www.youtube.com/channel/UC").toList ++ w :=
    cleanUrl_shape rfl hw1 (fun c hc => wordDash_not_ws (hw c hc))
      (fun c hc => wordDash_not_slash (hw c hc))
  have hsc : searchCapture (("youtube.com/channel/UC").toList) isWordDash
      (("https://www.youtube.com/channel/UC").toList ++ w) = some w := by
    rw [show ("https://www.youtube.com/channel/UC").toList
        = ("https://www.").toList ++ ("youtube.com/channel/UC").toList by decide]
    exact shape_match (by decide) (by decide) hw1 hw
  have hm : chanMatch (("https://www.youtube.com/channel/UC").toList ++ w)
      ChanPattern.channel = some ('U' :: 'C' :: w) := by
    simp only [chanMatch, hsc, Option.map_some']
  unfold extract_channel_id
  rw [hclean]
  simp only [chanPatternList, tryPatterns, hm, runResolver, List.isEmpty_cons,
    Bool.false_eq_true, if_false]

theorem extract_channel_custom (env : ResolverEnv) {name cid : List Char} (h1 : name ≠ [])
    (h2 : ∀ c ∈ name, isNameChar c = true)
    (hres : env.customUrl name = Except.ok (some cid)) (hcid : cid ≠ []) :
    extract_channel_id env (("https://www.youtube.com/c/").toList ++ name) = some cid := by
  have hclean : cleanUrl (("https://www.youtube.com/c/").toList ++ name)
      = ("https://www.youtube.com/c/").toList ++ name :=
    cleanUrl_shape rfl h1 (fun c hc => nameChar_not_ws (h2 c hc))
      (fun c hc => nameChar_not_slash_bool (h2 c hc))
  have hm1 : chanMatch (("https://www.youtube.com/c/").toList ++ name)
      ChanPattern.channel = none := by
    have hsc : searchCapture (("youtube.com/channel/UC").toList) isWordDash
        (("https://www.youtube.com/c/").toList ++ name) = none :=
      shape_nomatch isNameChar (by decide) ⟨'/', by decide, by decide⟩ h2
    simp only [chanMatch, hsc, Option.map_none']
  have hm2 : chanMatch (("https://www.youtube.com/c/").toList ++ name)
      ChanPattern.custom = some name := by
    have hsc : searchCapture (("youtube.com/c/").toList) isNotSlash
        (("https://www.youtube.com/c/").toList ++ name) = some name := by
      rw [show ("https://www.youtube.com/c/").toList
          = ("https://www.").toList ++ ("youtube.com/c/").toList by decide]
      exact shape_match (by decide) (by decide) h1 (fun c hc => nameChar_notSlash (h2 c hc))
    simpa only [chanMatch] using hsc
  unfold extract_channel_id
  rw [hclean]
  have hcid' : cid.isEmpty = false := by simpa [List.isEmpty_iff] using hcid
  simp only [chanPatternList, tryPatterns, hm1, hm2, runResolver, hres, hcid',
    Bool.false_eq_true, if_false]

theorem extract_channel_handle (env : ResolverEnv) {h cid : List Char} (h1 : h ≠ [])
    (h2 : ∀ c ∈ h, isNameChar c = true)
    (hres : env.customHandle h = Except.ok (some cid)) (hcid : cid ≠ []) :
    extract_channel_id env (("https://www.youtube.com/@").toList ++ h) = some cid := by
  have hclean : cleanUrl (("https://www.youtube.com/@").toList ++ h)
      = ("https://www.youtube.com/@").toList ++ h :=
    cleanUrl_shape rfl h1 (fun c hc => nameChar_not_ws (h2 c hc))
      (fun c hc => nameChar_not_slash_bool (h2 c hc))
  have hm1 : chanMatch (("https://www.youtube.com/@").toList ++ h)
      ChanPattern.channel = none := by
    have hsc : searchCapture (("youtube.com/channel/UC").toList) isWordDash
        (("https://www.youtube.com/@").toList ++ h) = none :=
      shape_nomatch isNameChar (by decide) ⟨'/', by decide, by decide⟩ h2
    simp only [chanMatch, hsc, Option.map_none']
  have hm2 : chanMatch (("https://www.youtube.com/@").toList ++ h)
      ChanPattern.custom = none := by
    have hsc : searchCapture (("youtube.com/c/").toList) isNotSlash
        (("https://www.youtube.com/@").toList ++ h) = none :=
      shape_nomatch isNameChar (by decide) ⟨'/', by decide, by decide⟩ h2
    simpa only [chanMatch] using hsc
  have hm3 : chanMatch (("https://www.youtube.com/@").toList ++ h)
      ChanPattern.handle = some h := by
    have hsc : searchCapture (("youtube.com/@").toList) isNotSlash
        (("https://www.youtube.com/@").toList ++ h) = some h := by
      rw [show ("https://www.youtube.com/@").toList
          = ("https://www.").toList ++ ("youtube.com/@").toList by decide]
      exact shape_match (by decide) (by decide) h1 (fun c hc => nameChar_notSlash (h2 c hc))
    simpa only [chanMatch] using hsc
  unfold extract_channel_id
  rw [hclean]
  have hcid' : cid.isEmpty = false := by simpa [List.isEmpty_iff] using hcid
  simp only [chanPatternList, tryPatterns, hm1, hm2, hm3, runResolver, hres, hcid',
    Bool.false_eq_true, if_false]

theorem extract_channel_user (env : ResolverEnv) {u cid : List Char} (h1 : u ≠ [])
    (h2 : ∀ c ∈ u, isNameChar c = true)
    (hres : env.username u = Except.ok (some cid)) (hcid : cid ≠ []) :
    extract_channel_id env (("https://www.youtube.com/user/").toList ++ u) = some cid := by
  have hclean : cleanUrl (("https://www.youtube.com/user/").toList ++ u)
      = ("https://www.youtube.com/user/").toList ++ u :=
    cleanUrl_shape rfl h1 (fun c hc => nameChar_not_ws (h2 c hc))
      (fun c hc => nameChar_not_slash_bool (h2 c hc))
  have hm1 : chanMatch (("https://www.youtube.com/user/").toList ++ u)
      ChanPattern.channel = none := by
    have hsc : searchCapture (("youtube.com/channel/UC").toList) isWordDash
        (("https://www.youtube.com/user/").toList ++ u) = none :=
      shape_nomatch isNameChar (by decide) ⟨'/', by decide, by decide⟩ h2
    simp only [chanMatch, hsc, Option.map_none']
  have hm2 : chanMatch (("https://www.youtube.com/user/").toList ++ u)
      ChanPattern.custom = none := by
    have hsc : searchCapture (("youtube.com/c/").toList) isNotSlash
        (("https://www.youtube.com/user/").toList ++ u) = none :=
      shape_nomatch isNameChar (by decide) ⟨'/', by decide, by decide⟩ h2
    simpa only [chanMatch] using hsc
  have hm3 : chanMatch (("https://www.youtube.com/user/").toList ++ u)
      ChanPattern.handle = none := by
    have hsc : searchCapture (("youtube.com/@").toList) isNotSlash
        (("https://www.youtube.com/user/").toList ++ u) = none :=
      shape_nomatch isNameChar (by decide) ⟨'/', by decide, by decide⟩ h2
    simpa only [chanMatch] using hsc
  have hm4 : chanMatch (("https://www.youtube.com/user/").toList ++ u)
      ChanPattern.user = some u := by
    have hsc : searchCapture (("youtube.com/user/").toList) isNotSlash
        (("https://www.youtube.com/user/").toList ++ u) = some u := by
      rw [show ("https://www.youtube.com/user/").toList
          = ("https://www.").toList ++ ("youtube.com/user/").toList by decide]
      exact shape_match (by decide) (by decide) h1 (fun c hc => nameChar_notSlash (h2 c hc))
    simpa only [chanMatch] using hsc
  unfold extract_channel_id
  rw [hclean]
  have hcid' : cid.isEmpty = false := by simpa [List.isEmpty_iff] using hcid
  simp only [chanPatternList, tryPatterns, hm1, hm2, hm3, hm4, runResolver, hres, hcid',
    Bool.false_eq_true, if_false]

theorem tryPatterns_first_success (env : ResolverEnv) (p : ChanPattern)
    (ps : List ChanPattern) (u ident cid : List Char) (hm : chanMatch u p = some ident)
    (hr : runResolver env p ident = Except.ok (some cid)) (hc : cid ≠ []) :
    tryPatterns env (p :: ps) u = some cid := by
  have hc' : cid.isEmpty = false := by simpa [List.isEmpty_iff] using hc
  simp only [tryPatterns, hm, hr, hc', Bool.false_eq_true, if_false]

theorem tryPatterns_error_next (env : ResolverEnv) (p : ChanPattern)
    (ps : List ChanPattern) (u ident e : List Char) (hm : chanMatch u p = some ident)
    (hr : runResolver env p ident = Except.error e) :
    tryPatterns env (p :: ps) u = tryPatterns env ps u := by
  simp only [tryPatterns, hm, hr]

theorem tryPatterns_noitems_next (env : ResolverEnv) (p : ChanPattern)
    (ps : List ChanPattern) (u ident : List Char) (hm : chanMatch u p = some ident)
    (hr : runResolver env p ident = Except.ok none) :
    tryPatterns env (p :: ps) u = tryPatterns env ps u := by
  simp only [tryPatterns, hm, hr]

theorem tryPatterns_nomatch_next (env : ResolverEnv) (p : ChanPattern)
    (ps : List ChanPattern) (u : List Char) (hm : chanMatch u p = none) :
    tryPatterns env (p :: ps) u = tryPatterns env ps u := by
  simp only [tryPatterns, hm]

theorem tryPatterns_all_none (env : ResolverEnv) :
    ∀ (ps : List ChanPattern) (u : List Char), (∀ p ∈ ps, chanMatch u p = none) →
      tryPatterns env ps u = none := by
  intro ps
  induction ps with
  | nil => intro u _; rfl
  | cons p ps ih =>
    intro u h
    rw [tryPatterns_nomatch_next env p ps u (h p (List.mem_cons_self p ps))]
    exact ih u (fun q hq => h q (List.mem_cons_of_mem p hq))

theorem extract_channel_id_fallback (env : ResolverEnv) (url : List Char)
    (hnone : tryPatterns env chanPatternList (cleanUrl url) = none) :
    extract_channel_id env url =
      (match env.channelUrl (cleanUrl url) with
       | Except.ok r => r
       | Except.error _ => none) := by
  unfold extract_channel_id
  simp only [hnone]

theorem channel_workflow_abort (env : ResolverEnv) (pages : List (Except String Page))
    (url : List Char) (h : (extract_channel_idT env url).2 = none) :
    download_channel_transcriptsT env pages url
      = (extract_channel_idT env url).1 ++ [Ev.printChanError] := by
  unfold download_channel_transcriptsT
  cases he : extract_channel_idT env url with
  | mk evs r =>
    rw [he] at h
    simp only at h
    subst h
    simp only

theorem resolverEvents_mem {p : ChanPattern} {e : Ev} (h : e ∈ resolverEvents p) :
    e = Ev.netResolve := by
  cases p <;> simp [resolverEvents] at h <;> exact h

theorem tryPatternsT_events (env : ResolverEnv) :
    ∀ (ps : List ChanPattern) (u : List Char) (e : Ev),
      e ∈ (tryPatternsT env ps u).1 → e = Ev.netResolve := by
  intro ps
  induction ps with
  | nil => intro u e he; exact absurd he (by simp [tryPatternsT])
  | cons p ps ih =>
    intro u e he
    cases hm : chanMatch u p with
    | none =>
      rw [tryPatternsT] at he
      rw [hm] at he
      exact ih u e he
    | some ident =>
      cases hr : runResolver env p ident with
      | error msg =>
        simp only [tryPatternsT, hm, hr, List.mem_append] at he
        rcases he with he | he
        · exact resolverEvents_mem he
        · exact ih u e he
      | ok r =>
        cases r with
        | none =>
          simp only [tryPatternsT, hm, hr, List.mem_append] at he
          rcases he with he | he
          · exact resolverEvents_mem he
          · exact ih u e he
        | some cid =>
          cases hc : cid.isEmpty with
          | true =>
            simp only [tryPatternsT, hm, hr, hc, if_true, List.mem_append] at he
            rcases he with he | he
            · exact resolverEvents_mem he
            · exact ih u e he
          | false =>
            simp only [tryPatternsT, hm, hr, hc, Bool.false_eq_true, if_false] at he
            exact resolverEvents_mem he

theorem extract_channel_idT_events (env : ResolverEnv) (url : List Char) :
    ∀ e ∈ (extract_channel_idT env url).1, e = Ev.netResolve := by
  intro e he
  cases ht : tryPatternsT env chanPatternList (cleanUrl url) with
  | mk evs r =>
    have hevs : ∀ x ∈ evs, x = Ev.netResolve := by
      intro x hx
      apply tryPatternsT_events env chanPatternList (cleanUrl url) x
      rw [ht]
      exact hx
    cases r with
    | some cid =>
      have heq : (extract_channel_idT env url).1 = evs := by
        simp only [extract_channel_idT, ht]
      rw [heq] at he
      exact hevs e he
    | none =>
      cases hcu : env.channelUrl (cleanUrl url) with
      | ok r2 =>
        have heq : (extract_channel_idT env url).1 = evs ++ [Ev.netResolve] := by
          simp only [extract_channel_idT, ht, hcu]
        rw [heq] at he
        rcases List.mem_append.mp he with he | he
        · exact hevs e he
        · simpa using he
      | error msg =>
        have heq : (extract_channel_idT env url).1 = evs ++ [Ev.netResolve] := by
          simp only [extract_channel_idT, ht, hcu]
        rw [heq] at he
        rcases List.mem_append.mp he with he | he
        · exact hevs e he
        · simpa using he

theorem takeWhile_append_all {α : Type} {p : α → Bool} :
    ∀ {l m : List α}, (∀ x ∈ l, p x = true) →
      (l ++ m).takeWhile p = l ++ m.takeWhile p := by
  intro l
  induction l with
  | nil => intro m _; rfl
  | cons a l ih =>
    intro m h
    have ha : p a = true := h a (List.mem_cons_self a l)
    simp only [List.cons_append, List.takeWhile_cons, ha, if_true]
    rw [ih (fun x hx => h x (List.mem_cons_of_mem a hx))]

theorem countP_not_add {α : Type} (p : α → Bool) (l : List α) :
    l.countP p + l.countP (fun x => !p x) = l.length := by
  induction l with
  | nil => simp
  | cons a l ih => cases ha : p a <;> simp [List.countP_cons, ha] <;> omega

theorem takeWhile_prepend_stop {α : Type} {p : α → Bool} {l m : List α} {y : α}
    (hl : ∀ x ∈ l, p x = true) (hy : p y = false) :
    (l ++ y :: m).takeWhile p = l := by
  rw [takeWhile_append_all hl, List.takeWhile_cons, hy]
  simp

theorem channel_trace_no_net_before_prompt (env : ResolverEnv)
    (pages : List (Except String Page)) (url : List Char) :
    ∀ e ∈ (download_channel_transcriptsT env pages url).takeWhile
        (fun x => !(x == Ev.promptFormat)),
      e ≠ Ev.netList ∧ e ≠ Ev.netFetch := by
  intro e he
  cases ht : extract_channel_idT env url with
  | mk evs r =>
    have hevs : ∀ x ∈ evs, x = Ev.netResolve := by
      intro x hx
      apply extract_channel_idT_events env url x
      rw [ht]
      exact hx
    cases r with
    | none =>
      have heq : download_channel_transcriptsT env pages url
          = evs ++ [Ev.printChanError] := by
        unfold download_channel_transcriptsT
        rw [ht]
      rw [heq] at he
      have he3 : e ∈ evs ++ [Ev.printChanError] :=
        ( List.takeWhile_prefix _).subset he
      rcases List.mem_append.mp he3 with he4 | he4
      · rw [hevs e he4]
        exact ⟨by decide, by decide⟩
      · have : e = Ev.printChanError := by simpa using he4
        rw [this]
        exact ⟨by decide, by decide⟩
    | some cid =>
      have heq : download_channel_transcriptsT env pages url
          = evs ++ Ev.promptFormat :: ((get_channel_videosT pages).1 ++
              (get_channel_videosT pages).2.map (fun _ => Ev.netFetch)) := by
        unfold download_channel_transcriptsT
        rw [ht]
        simp
      rw [heq] at he
      rw [takeWhile_prepend_stop
        (fun x hx => by rw [hevs x hx]; decide) (by decide)] at he
      rw [hevs e he]
      exact ⟨by decide, by decide⟩

theorem get_output_format_valid (n : Int) (hn : 1 ≤ n ∧ n ≤ 3) :
    get_output_format [some n]
      = some (if n = 1 then OutputFormat.json else if n = 2 then OutputFormat.txt
              else OutputFormat.srt) := by
  rw [get_output_format, if_pos hn]

theorem get_output_format_reprompts (junk : List (Option Int))
    (hj : ∀ x ∈ junk, isInvalidEntry x = true) (rest : List (Option Int)) :
    get_output_format (junk ++ rest) = get_output_format rest := by
  induction junk with
  | nil => rfl
  | cons x junk ih =>
    cases x with
    | none =>
      rw [List.cons_append, get_output_format]
      exact ih (fun y hy => hj y (List.mem_cons_of_mem none hy))
    | some m =>
      have hm := hj (some m) (List.mem_cons_self _ _)
      have hm' : ¬(1 ≤ m ∧ m ≤ 3) := by
        simp only [isInvalidEntry, Bool.or_eq_true, decide_eq_true_eq] at hm
        omega
      rw [List.cons_append, get_output_format, if_neg hm']
      exact ih (fun y hy => hj y (List.mem_cons_of_mem (some m) hy))

theorem extract_video_id_idem (s : List Char) :
    extract_video_id (extract_video_id s) = extract_video_id s := by
  cases hf : findFirstCapture videoPatterns s with
  | none =>
    have e1 : extract_video_id s = s := by unfold extract_video_id; rw [hf]
    rw [e1]
    exact e1
  | some cap =>
    have e1 : extract_video_id s = cap := by unfold extract_video_id; rw [hf]
    rw [e1]
    have hcap : ∀ c ∈ cap, isIdChar c = true := findFirstCapture_alphabet hf
    apply extract_video_id_no_match
    intro lit hl
    have hl' : lit = ("youtube.com/watch?v=").toList ∨ lit = ("youtu.be/").toList ∨
        lit = ("youtube.com/v/").toList ∨ lit = ("youtube.com/embed/").toList := by
      simpa [videoPatterns] using hl
    rcases hl' with rfl | rfl | rfl | rfl <;>
      exact searchCapture_none_inside ⟨'.', by decide, by decide⟩ _ hcap

/-! ## Claim theorems -/

/-- C1: SRT export writes one cue per segment in input order with
sequential 1-based cue numbers, a timestamp line whose end equals start
plus duration (0 when the duration field is absent), both timestamps as
HH:MM:SS,mmm, the text, and a blank-line separator; for the segment
(text "hello", start 61.5, duration 2.25) the start timestamp is
00:01:01,500 and the end timestamp 00:01:03,750. -/
theorem C1_srt_export (ts : List Segment) :
    save_transcript_srt ts = strConcat (ts.enum.map (fun p => srtCue (p.1 + 1) p.2)) ∧
    (∀ (n : Nat) (txt : String) (t : ℚ),
      srtCue n ⟨txt, t, none⟩ = srtCue n ⟨txt, t, some 0⟩) ∧
    srtTime ((123 : ℚ) / 2) = "00:01:01,500" ∧
    srtTime ((123 : ℚ) / 2 + (9 : ℚ) / 4) = "00:01:03,750" ∧
    save_transcript_srt [⟨"hello", (123 : ℚ) / 2, some ((9 : ℚ) / 4)⟩]
      = "1\n00:01:01,500 --> 00:01:03,750\nhello\n\n" := by
  refine ⟨save_transcript_srt_spec ts, ?_, ?_, ?_, ?_⟩
  · intro n txt t; rfl
  · with_unfolding_all rfl
  · with_unfolding_all rfl
  · with_unfolding_all rfl

/-- C2: JSON export writes the full segment sequence with no derived
fields and 2-space indentation, escaping leaves every non-ASCII character
literal, and parsing the dump back yields the original segment list
exactly (string content round-trips through escaping, numbers are carried
exactly). -/
theorem C2_json_roundtrip (ts : List Segment) (s : List Char) (c : Char)
    (hc : 128 ≤ c.toNat) :
    jsonToTranscript (transcriptToJson ts) = some ts ∧
    unescapeList (escapeList s) = s ∧
    escapeChar c = [c] ∧
    save_transcript_json [⟨"héllo", mkRat 123 2, some (mkRat 9 4)⟩]
      = "[\n  \x7b\n    \"text\": \"héllo\",\n    \"start\": 61.5,\n    \"duration\": 2.25\n  \x7d\n]" :=
  ⟨json_value_roundtrip ts, unescape_escape s, escapeChar_nonascii c hc, by decide⟩

theorem C2_json_roundtrip_witness :
    128 ≤ ('é').toNat ∧
    jsonToTranscript (transcriptToJson [⟨"hello", mkRat 123 2, some (mkRat 9 4)⟩])
      = some [⟨"hello", mkRat 123 2, some (mkRat 9 4)⟩] := by
  refine ⟨by decide, ?_⟩
  exact (C2_json_roundtrip [⟨"hello", mkRat 123 2, some (mkRat 9 4)⟩] ("x").toList 'é'
    (by decide)).1

/-- C5: channel video enumeration accumulates ids page by page in order,
skips items whose nested video-id field is missing or empty, and on a page
call that raises mid-pagination returns exactly what the earlier pages
yielded; being a total function it never raises.  The last conjunct is the
spec's scenario: an injected failure on page 2 yields exactly page 1's
ids. -/
theorem C5_partial_enumeration :
    (∀ ps : List Page, (∀ p ∈ ps, p.hasNext = true) →
       ∀ (e : String) (rest : List (Except String Page)),
         get_channel_videos (ps.map Except.ok ++ Except.error e :: rest)
           = (ps.map pageIds).flatten) ∧
    (∀ ps : List Page, (∀ p ∈ ps, p.hasNext = true) → ∀ q : Page, q.hasNext = false →
       get_channel_videos (ps.map Except.ok ++ [Except.ok q])
         = (ps.map pageIds).flatten ++ pageIds q) ∧
    (∀ (items : List (Option String)) (b : Bool),
       pageIds ⟨items, b⟩ = (items.filterMap id).filter (fun v => !v.isEmpty)) ∧
    get_channel_videos
        [Except.ok ⟨[some "a", none, some "b"], true⟩, Except.error "page 2 failed"]
      = ["a", "b"] :=
  ⟨get_channel_videos_stops, get_channel_videos_complete,
   pageIds_skips_malformed, by decide⟩

theorem C5_partial_enumeration_witness :
    (∀ p ∈ [(⟨[some "a", none, some "b"], true⟩ : Page)], p.hasNext = true) ∧
    get_channel_videos ([(⟨[some "a", none, some "b"], true⟩ : Page)].map Except.ok
        ++ Except.error "boom" :: [])
      = ([(⟨[some "a", none, some "b"], true⟩ : Page)].map pageIds).flatten :=
  ⟨by decide, C5_partial_enumeration.1 _ (by decide) "boom" []⟩

/-- C6: in the channel batch loop, an error whose message contains
"No transcripts were found" counts only towards no_captions, any other
error only towards failed, a completed save only towards successful; no
outcome aborts the fold, and the three counters sum to the number of
videos processed (in particular to the number of videos found by
enumeration). -/
theorem C6_tally (outcomes : List VideoOutcome) (pages : List (Except String Page))
    (oc : String → VideoOutcome) :
    runTally outcomes = ⟨outcomes.countP isSaved, outcomes.countP isNoCaptions,
      outcomes.countP isFailure⟩ ∧
    (runTally outcomes).successful + (runTally outcomes).no_captions
        + (runTally outcomes).failed = outcomes.length ∧
    (runTally ((get_channel_videos pages).map oc)).successful
        + (runTally ((get_channel_videos pages).map oc)).no_captions
        + (runTally ((get_channel_videos pages).map oc)).failed
      = (get_channel_videos pages).length ∧
    runTally [VideoOutcome.error "No transcripts were found for video v1"] = ⟨0, 1, 0⟩ ∧
    runTally [VideoOutcome.error "HTTP 403: private video"] = ⟨0, 0, 1⟩ ∧
    runTally [VideoOutcome.saved] = ⟨1, 0, 0⟩ := by
  have hgen : ∀ l : List VideoOutcome,
      runTally l = ⟨l.countP isSaved, l.countP isNoCaptions, l.countP isFailure⟩ := by
    intro l
    rw [runTally, tally_foldl]
    simp
  have hsum : ∀ l : List VideoOutcome,
      (runTally l).successful + (runTally l).no_captions + (runTally l).failed
        = l.length := by
    intro l
    rw [hgen l]
    exact tally_partition l
  refine ⟨hgen outcomes, hsum outcomes, ?_, by decide, by decide, by decide⟩
  rw [hsum ((get_channel_videos pages).map oc), List.length_map]

/-- C8: the file batch workflow processes exactly the non-blank stripped
lines, in order; failures neither abort later lines nor remove files
written for earlier lines (the final file list is exactly the files of the
successful lines, in order); the spec's scenario (line 2 blank, line 3
failing) yields 2 processed items with line 1's file present at the
end. -/
theorem C8_file_batch (fetch : List Char → Except String (List Segment))
    (lines : List (List Char)) :
    (download_multiple_video_transcripts fetch lines).processed
        = (nonBlankLines lines).length ∧
    (download_multiple_video_transcripts fetch lines).successful
        + (download_multiple_video_transcripts fetch lines).failed
        = (nonBlankLines lines).length ∧
    (download_multiple_video_transcripts fetch lines).files
        = (nonBlankLines lines).filterMap (fileOf fetch) ∧
    (download_multiple_video_transcripts scenarioFetch scenarioLines).processed = 2 ∧
    (download_multiple_video_transcripts scenarioFetch scenarioLines).successful = 1 ∧
    (download_multiple_video_transcripts scenarioFetch scenarioLines).failed = 1 ∧
    (download_multiple_video_transcripts scenarioFetch scenarioLines).files
      = [("id1").toList] := by
  rw [download_multiple_video_transcripts, batch_foldl]
  refine ⟨by simp, ?_, by simp, by decide, by decide, by decide, by decide⟩
  simp only [Nat.zero_add, List.nil_append]
  exact countP_not_add (lineOk fetch) (nonBlankLines lines)

/-- C9: video-id extraction is idempotent: applying extract_video_id to
its own result returns that result unchanged, for every input string. -/
theorem C9_extract_idempotent (s : List Char) :
    extract_video_id (extract_video_id s) = extract_video_id s :=
  extract_video_id_idem s

/-- C10: in the file batch workflow the "could not extract video ID"
branch is unreachable: the count of times it is taken is 0 for every fetch
oracle and every input file, because extraction returns a non-empty string
on every non-empty input and processed lines are stripped non-blank
lines. -/
theorem C10_unreachable_branch (fetch : List Char → Except String (List Segment))
    (lines : List (List Char)) (s : List Char) (hs : s ≠ []) :
    (download_multiple_video_transcripts fetch lines).extractFailures = 0 ∧
    extract_video_id s ≠ [] := by
  constructor
  · rw [download_multiple_video_transcripts, batch_foldl]
    simp [batch_no_extract_failures]
  · exact extract_video_id_ne_nil hs

theorem C10_unreachable_branch_witness :
    (("x").toList ≠ ([] : List Char)) ∧
    ((download_multiple_video_transcripts (fun _ => Except.error "e")
        [("u").toList]).extractFailures = 0 ∧
      extract_video_id (("x").toList) ≠ []) :=
  ⟨by decide,
   C10_unreachable_branch (fun _ => Except.error "e") [("u").toList] (("x").toList)
     (by decide)⟩

/-- C3 counterexample: the claim's pass-through also covers channel-URL
extraction, but on the unmatched input "random" the code queries the
free-text resolver and, when that returns no items, yields None — not the
input string unchanged. -/
theorem C3_counterexample :
    extract_channel_id envNone (("random").toList) ≠ some (("random").toList) := by
  decide

/-- C3 amended: for every supported URL shape, extraction returns exactly
the embedded identifier (video URLs through the four patterns tried in
order; channel URLs through the pattern loop, the captured fragment being
handed to the matching resolver); an unmatched video URL is returned
unchanged (pass-through); an unmatched channel URL is instead resolved by
a free-text search of the cleaned URL, yielding None when that fails.  The
last conjunct shows first-match-wins on an input both the watch and the
youtu.be patterns match. -/
theorem C3_extraction :
    (∀ v : List Char, v ≠ [] → (∀ c ∈ v, isIdChar c = true) →
      extract_video_id (("https://www.youtube.com/watch?v=").toList ++ v) = v ∧
      extract_video_id (("https://youtu.be/").toList ++ v) = v ∧
      extract_video_id (("https://www.youtube.com/v/").toList ++ v) = v ∧
      extract_video_id (("https://www.youtube.com/embed/").toList ++ v) = v) ∧
    (∀ s : List Char, (∀ lit ∈ videoPatterns, searchCapture lit isIdChar s = none) →
      extract_video_id s = s) ∧
    (∀ (env : ResolverEnv) (w : List Char), w ≠ [] → (∀ c ∈ w, isWordDash c = true) →
      extract_channel_id env (("https://www.youtube.com/channel/UC").toList ++ w)
        = some ('U' :: 'C' :: w)) ∧
    (∀ (env : ResolverEnv) (name cid : List Char), name ≠ [] →
      (∀ c ∈ name, isNameChar c = true) →
      env.customUrl name = Except.ok (some cid) → cid ≠ [] →
      extract_channel_id env (("https://www.youtube.com/c/").toList ++ name) = some cid) ∧
    (∀ (env : ResolverEnv) (h cid : List Char), h ≠ [] →
      (∀ c ∈ h, isNameChar c = true) →
      env.customHandle h = Except.ok (some cid) → cid ≠ [] →
      extract_channel_id env (("https://www.youtube.com/@").toList ++ h) = some cid) ∧
    (∀ (env : ResolverEnv) (u cid : List Char), u ≠ [] →
      (∀ c ∈ u, isNameChar c = true) →
      env.username u = Except.ok (some cid) → cid ≠ [] →
      extract_channel_id env (("https://www.youtube.com/user/").toList ++ u) = some cid) ∧
    (∀ (env : ResolverEnv) (s : List Char),
      (∀ p ∈ chanPatternList, chanMatch (cleanUrl s) p = none) →
      extract_channel_id env s =
        (match env.channelUrl (cleanUrl s) with
         | Except.ok r => r
         | Except.error _ => none)) ∧
    extract_video_id (("https://youtube.com/watch?v=abc&x=youtu.be/def").toList)
      = ("abc").toList := by
  refine ⟨?_, ?_, ?_, ?_, ?_, ?_, ?_, by decide⟩
  · intro v hv1 hv
    exact ⟨extract_watch_url hv1 hv, extract_youtu_be_url hv1 hv, extract_v_url hv1 hv,
      extract_embed_url hv1 hv⟩
  · intro s h
    exact extract_video_id_no_match h
  · intro env w hw1 hw
    exact extract_channel_UC env hw1 hw
  · intro env name cid h1 h2 hres hcid
    exact extract_channel_custom env h1 h2 hres hcid
  · intro env h cid h1 h2 hres hcid
    exact extract_channel_handle env h1 h2 hres hcid
  · intro env u cid h1 h2 hres hcid
    exact extract_channel_user env h1 h2 hres hcid
  · intro env s hnone
    exact extract_channel_id_fallback env s
      (tryPatterns_all_none env chanPatternList (cleanUrl s) hnone)

theorem C3_extraction_witness :
    extract_video_id (("https://www.youtube.com/watch?v=dQw4w9WgXcQ").toList)
      = ("dQw4w9WgXcQ").toList ∧
    extract_channel_id envNone (("https://www.youtube.com/channel/UCab-1_c").toList)
      = some (("UCab-1_c").toList) := by
  constructor
  · rw [show ("https://www.youtube.com/watch?v=dQw4w9WgXcQ").toList
        = ("https://www.youtube.com/watch?v=").toList ++ ("dQw4w9WgXcQ").toList by decide]
    exact (C3_extraction.1 (("dQw4w9WgXcQ").toList) (by decide) (by decide)).1
  · rw [show ("https://www.youtube.com/channel/UCab-1_c").toList
        = ("https://www.youtube.com/channel/UC").toList ++ ("ab-1_c").toList by decide]
    rw [C3_extraction.2.2.1 envNone (("ab-1_c").toList) (by decide) (by decide)]
    decide

/-- C4 counterexample: the claim says the final fallback resolves the
entire original URL string; for the input "foo/" the oracle resolves the
query "foo/" successfully, yet extraction yields None — the code queries
the cleaned URL "foo" instead of the original string. -/
theorem C4_counterexample :
    envFallbackProbe.channelUrl (("foo/").toList)
      = Except.ok (some (("UCX").toList)) ∧
    extract_channel_id envFallbackProbe (("foo/").toList) = none := by
  constructor
  · rfl
  · decide

/-- C4 amended: channel resolution tries the pattern strategies in their
fixed order and stops at the first strategy returning a non-empty id; a
strategy that raises or returns no items (or an empty id) lets the next
matching strategy run; when the loop produces nothing the fallback
resolves the cleaned URL (whitespace-stripped, trailing slashes removed)
as a free-text channel search; if that raises or returns nothing the
result is None, and the channel workflow then emits the user-visible abort
message and performs nothing else — no exception escapes, the workflow
being a total function. -/
theorem C4_resolution_chain :
    (∀ (env : ResolverEnv) (p : ChanPattern) (ps : List ChanPattern)
        (u ident cid : List Char), chanMatch u p = some ident →
        runResolver env p ident = Except.ok (some cid) → cid ≠ [] →
        tryPatterns env (p :: ps) u = some cid) ∧
    (∀ (env : ResolverEnv) (p : ChanPattern) (ps : List ChanPattern)
        (u ident e : List Char), chanMatch u p = some ident →
        runResolver env p ident = Except.error e →
        tryPatterns env (p :: ps) u = tryPatterns env ps u) ∧
    (∀ (env : ResolverEnv) (p : ChanPattern) (ps : List ChanPattern)
        (u ident : List Char), chanMatch u p = some ident →
        runResolver env p ident = Except.ok none →
        tryPatterns env (p :: ps) u = tryPatterns env ps u) ∧
    (∀ (env : ResolverEnv) (p : ChanPattern) (ps : List ChanPattern) (u : List Char),
        chanMatch u p = none →
        tryPatterns env (p :: ps) u = tryPatterns env ps u) ∧
    (∀ (env : ResolverEnv) (url : List Char),
        tryPatterns env chanPatternList (cleanUrl url) = none →
        extract_channel_id env url =
          (match env.channelUrl (cleanUrl url) with
           | Except.ok r => r
           | Except.error _ => none)) ∧
    (∀ (env : ResolverEnv) (url e : List Char),
        tryPatterns env chanPatternList (cleanUrl url) = none →
        env.channelUrl (cleanUrl url) = Except.error e →
        extract_channel_id env url = none) ∧
    (∀ (env : ResolverEnv) (pages : List (Except String Page)) (url : List Char),
        (extract_channel_idT env url).2 = none →
        download_channel_transcriptsT env pages url
          = (extract_channel_idT env url).1 ++ [Ev.printChanError]) := by
  refine ⟨tryPatterns_first_success, tryPatterns_error_next, tryPatterns_noitems_next,
    tryPatterns_nomatch_next, extract_channel_id_fallback, ?_, channel_workflow_abort⟩
  intro env url e hnone hcu
  rw [extract_channel_id_fallback env url hnone, hcu]

theorem C4_resolution_chain_witness :
    chanMatch (("youtube.com/channel/UCabc").toList) ChanPattern.channel
      = some (("UCabc").toList) ∧
    tryPatterns envNone
        (ChanPattern.channel
          :: [ChanPattern.custom, ChanPattern.handle, ChanPattern.user])
        (("youtube.com/channel/UCabc").toList)
      = some (("UCabc").toList) := by
  refine ⟨by decide, ?_⟩
  exact C4_resolution_chain.1 envNone ChanPattern.channel
    [ChanPattern.custom, ChanPattern.handle, ChanPattern.user]
    (("youtube.com/channel/UCabc").toList) (("UCabc").toList) (("UCabc").toList)
    (by decide) rfl (by decide)

/-- C7 counterexample: in the channel workflow, for a custom-path channel
URL the resolution lookup (a network call) happens before the format prompt:
the trace contains a netResolve event strictly before its promptFormat
event. -/
theorem C7_counterexample :
    Ev.netResolve ∈ (download_channel_transcriptsT envSucceedCustom
        [Except.ok ⟨[], false⟩]
        (("https://www.youtube.com/c/foo").toList)).takeWhile
        (fun x => !(x == Ev.promptFormat)) ∧
    Ev.promptFormat ∈ download_channel_transcriptsT envSucceedCustom
        [Except.ok ⟨[], false⟩] (("https://www.youtube.com/c/foo").toList) := by
  decide

/-- C7 amended: in the single-video and file workflows the format prompt
is the first observable event, before any network activity; in the channel
workflow, channel resolution (which may perform network lookups) precedes
the prompt, but no enumeration or transcript-fetch network activity occurs
before the prompt; the 1-3 format menu re-prompts without limit on invalid
numeric or non-numeric entries and accepts exactly 1-3. -/
theorem C7_prompt_order :
    (∀ (env : ResolverEnv) (pages : List (Except String Page)) (url : List Char),
       ∀ e ∈ (download_channel_transcriptsT env pages url).takeWhile
           (fun x => !(x == Ev.promptFormat)),
         e ≠ Ev.netList ∧ e ≠ Ev.netFetch) ∧
    (∀ url : List Char,
       (download_single_video_transcriptT url).head? = some Ev.promptFormat) ∧
    (∀ lines : List (List Char),
       (download_multiple_video_transcriptsT lines).head? = some Ev.promptFormat) ∧
    (∀ (junk rest : List (Option Int)), (∀ x ∈ junk, isInvalidEntry x = true) →
       get_output_format (junk ++ rest) = get_output_format rest) ∧
    (∀ n : Int, 1 ≤ n ∧ n ≤ 3 →
       get_output_format [some n] = some (if n = 1 then OutputFormat.json
         else if n = 2 then OutputFormat.txt else OutputFormat.srt)) := by
  refine ⟨channel_trace_no_net_before_prompt, fun url => rfl, fun lines => rfl,
    ?_, get_output_format_valid⟩
  intro junk rest hj
  exact get_output_format_reprompts junk hj rest

theorem C7_prompt_order_witness :
    (Ev.netResolve ∈ (download_channel_transcriptsT envSucceedCustom
        [Except.ok ⟨[], false⟩]
        (("https://www.youtube.com/c/foo").toList)).takeWhile
        (fun x => !(x == Ev.promptFormat))) ∧
    (Ev.netResolve ≠ Ev.netList ∧ Ev.netResolve ≠ Ev.netFetch) ∧
    (∀ x ∈ [(none : Option Int), some 0, some 9], isInvalidEntry x = true) ∧
    get_output_format ([(none : Option Int), some 0, some 9] ++ [some 3])
      = get_output_format [some 3] := by
  refine ⟨by decide, ?_, by decide, ?_⟩
  · exact C7_prompt_order.1 envSucceedCustom [Except.ok ⟨[], false⟩]
      (("https://www.youtube.com/c/foo").toList) Ev.netResolve (by decide)
  · exact C7_prompt_order.2.2.2.1 [(none : Option Int), some 0, some 9] [some 3]
      (by decide)

end Spec2Proof
